import Mathlib

/-!
# Verification of the xeokit component lifecycle / event system and PickController

Shallow embedding of:
* `src/unnamed/part_000` — the `Component` base class (events, attachments,
  ownership, destruction, deferred updates);
* `src/src/viewer/scene/CameraControl/lib/controllers/PickController.js` —
  the pick scheduling / hover event state machine.

Machine integers do not occur in the verified code paths; canvas/world
coordinates are modelled as `Int` tuples (the code only ever compares them
with `===`).  JavaScript `null` / `undefined` are modelled explicitly where
the code distinguishes them.
-/

set_option maxRecDepth 100000

namespace Xeokit

/-! ## PickController (PickController.js)

The controller talks to three collaborators that are outside this file's
sources: `this._configs.pointerEnabled` and
`this._cameraControl.hasSubs("hoverSurface")` are passed in as booleans, the
`this._scene.pick` / `this._scene.snapPick` backend is passed in as a pair of
oracle functions, and `this._scene.objects` is passed in as a lookup
function.  Every backend query `update()` issues is recorded in the returned
`List BackendCall` so that "no redundant GPU readback" is an observable fact.
-/

/-- A pick result (`PickResult` fields touched by PickController.js:
`entity`, `worldPos`, `canvasPos`, `snappedWorldPos`, `snappedCanvasPos`).
`entity` is modelled by its `id`. -/
structure PickResult where
  entity : Option String
  worldPos : Option (Int × Int × Int)
  canvasPos : Option (Int × Int)
  snappedWorldPos : Option (Int × Int × Int)
  snappedCanvasPos : Option (Int × Int)
  deriving DecidableEq, Repr

/-- The result of `new PickResult()` (PickController.js line 132): a result
with no fields populated yet. -/
def PickResult.empty : PickResult := ⟨none, none, none, none, none⟩

/-- Result of `this._scene.snapPick` (fields read at lines 135-145). -/
structure SnapPickResult where
  snappedWorldPos : Option (Int × Int × Int)
  snappedCanvasPos : Option (Int × Int)
  deriving DecidableEq, Repr

/-- The JavaScript value stored in `this._lastPickedEntityId`.  The
constructor initialises it to `null` (line 64) while `fireEvents` compares it
against, and resets it to, `undefined` (lines 185, 205, 209) — the
distinction is observable, so it is kept. -/
inductive LastId where
  | undef
  | null
  | entId (s : String)
  deriving DecidableEq, Repr

/-- PickController state (constructor, lines 14-67).  `_configs`,
`_cameraControl` and `_scene` are collaborators passed to each operation. -/
structure PickController where
  schedulePickEntity : Bool
  schedulePickSurface : Bool
  pickCursorPos : Int × Int
  picked : Bool
  pickedSurface : Bool
  pickResult : Option PickResult
  lastPickedEntityId : LastId
  needFireEvents : Bool
  deriving DecidableEq, Repr

/-- The freshly constructed controller (constructor lines 32-66;
`math.vec2()` is the zero vector). -/
def PickController.init : PickController :=
  { schedulePickEntity := false
    schedulePickSurface := false
    pickCursorPos := (0, 0)
    picked := false
    pickedSurface := false
    pickResult := none
    lastPickedEntityId := .null
    needFireEvents := false }

/-- `DEFAULT_SNAP_PICK_RADIUS` (line 5). -/
def DEFAULT_SNAP_PICK_RADIUS : Int := 45

/-- `DEFAULT_SNAP_TYPE` (line 6). -/
def DEFAULT_SNAP_TYPE : String := "vertex"

/-- A query issued to the render backend by `update()`. -/
inductive BackendCall where
  | pick (pickSurface : Bool) (pickSurfaceNormal : Bool) (canvasPos : Int × Int)
  | snapPick (canvasPos : Int × Int) (snapRadius : Int) (snapType : String)
  deriving DecidableEq, Repr

/-- The backend, `this._scene`: `pick` receives `(pickSurface, canvasPos)`
(`pickSurfaceNormal` is always `false` and entity picks pass no surface
flags, lines 118-122 and 156-158), `snapPick` receives the canvas position
(radius and snap type are the constants above). -/
structure PickBackend where
  pick : Bool → (Int × Int) → Option PickResult
  snapPick : (Int × Int) → Option SnapPickResult

/-- Stage three of `update()` — the fresh backend queries, lines 116-168.
Reached when neither cache short-circuit returned. -/
def PickController.updateQuery (backend : PickBackend) (s : PickController) :
    PickController × List BackendCall :=
  if s.schedulePickSurface then
    -- lines 118-122: this.pickResult = this._scene.pick({pickSurface: true, pickSurfaceNormal: false, canvasPos})
    let pr := backend.pick true s.pickCursorPos
    -- lines 124-128: snapPick with the default radius and snap type
    let spr := backend.snapPick s.pickCursorPos
    let calls := [BackendCall.pick true false s.pickCursorPos,
                  BackendCall.snapPick s.pickCursorPos DEFAULT_SNAP_PICK_RADIUS DEFAULT_SNAP_TYPE]
    -- lines 130-146: merge the snapped positions into the result, creating an
    -- empty PickResult when the primary pick returned nothing
    let pr2 : Option PickResult :=
      match spr with
      | none => pr
      | some sp =>
        let base := pr.getD PickResult.empty
        some { base with snappedWorldPos := sp.snappedWorldPos,
                         snappedCanvasPos := sp.snappedCanvasPos }
    -- lines 148-152 and 167-168
    if pr2.isSome then
      ({ s with pickResult := pr2, picked := true, pickedSurface := true,
                needFireEvents := true,
                schedulePickEntity := false, schedulePickSurface := false }, calls)
    else
      ({ s with pickResult := pr2,
                schedulePickEntity := false, schedulePickSurface := false }, calls)
  else
    -- lines 154-164: entity-only pick
    let pr := backend.pick false s.pickCursorPos
    let calls := [BackendCall.pick false false s.pickCursorPos]
    if pr.isSome then
      ({ s with pickResult := pr, picked := true, pickedSurface := false,
                needFireEvents := true,
                schedulePickEntity := false, schedulePickSurface := false }, calls)
    else
      ({ s with pickResult := pr,
                schedulePickEntity := false, schedulePickSurface := false }, calls)

/-- Stage two of `update()` — the entity-pick cache short-circuit,
lines 102-114.  `this.pickResult.canvasPos || this.pickResult.snappedCanvasPos`
is the JavaScript or on two possibly-undefined arrays. -/
def PickController.updateEntityCache (backend : PickBackend) (s : PickController) :
    PickController × List BackendCall :=
  match s.schedulePickEntity, s.pickResult with
  | true, some r =>
    match r.canvasPos.orElse (fun _ => r.snappedCanvasPos) with
    | some cp =>
      if cp = s.pickCursorPos then
        ({ s with picked := true, pickedSurface := false, needFireEvents := false,
                  schedulePickEntity := false, schedulePickSurface := false }, [])
      else s.updateQuery backend
    | none => s.updateQuery backend
  | _, _ => s.updateQuery backend

/-- `update()` (lines 72-169).  Split into three stages mirroring the
method's early returns: the no-op guards and surface-cache short-circuit
here, then `updateEntityCache`, then `updateQuery`.  `pointerEnabled` is
`this._configs.pointerEnabled`; `hasHoverSurfaceSubs` is
`this._cameraControl.hasSubs("hoverSurface")` (line 86).  The result is
`Except`: line 91 reads `this.pickResult.canvasPos[0]` guarded only by
`this.pickResult.worldPos`, so a cached result with a world position but no
canvas position would raise a TypeError — modelled as `.error ()`. -/
def PickController.update (pointerEnabled hasHoverSurfaceSubs : Bool)
    (backend : PickBackend) (s : PickController) :
    Except Unit (PickController × List BackendCall) :=
  -- lines 74-80: no-op guards
  if !pointerEnabled then .ok (s, [])
  else if !s.schedulePickEntity && !s.schedulePickSurface then .ok (s, [])
  else
    -- lines 82-84
    let s := { s with picked := false, pickedSurface := false, needFireEvents := false }
    -- lines 88-100: surface-pick cache short-circuit
    match s.schedulePickSurface, s.pickResult with
    | true, some r =>
      if r.worldPos.isSome then
        match r.canvasPos with
        | none => .error ()
        | some cp =>
          if cp = s.pickCursorPos then
            .ok ({ s with picked := true, pickedSurface := true,
                          needFireEvents := hasHoverSurfaceSubs,
                          schedulePickEntity := false, schedulePickSurface := false }, [])
          else .ok (s.updateEntityCache backend)
      else .ok (s.updateEntityCache backend)
    | _, _ => .ok (s.updateEntityCache backend)

/-- An event fired by `fireEvents()` on `this._cameraControl` (all of them
are fired with `forget = true`, so nothing is retained).  `hoverOut` carries
`{entity: this._scene.objects[this._lastPickedEntityId]}` — the looked-up
entity, which may be absent. -/
inductive HoverEv where
  | hoverOut (entity : Option String)
  | hoverEnter (r : PickResult)
  | hover (r : PickResult)
  | hoverSurface (r : PickResult)
  | hoverOff (canvasPos : Int × Int)
  deriving DecidableEq, Repr

/-- The lookup `this._scene.objects[this._lastPickedEntityId]`: property
access with `null` or `undefined` as the key finds nothing. -/
def lookupObjects (objects : String → Option String) : LastId → Option String
  | .entId s => objects s
  | _ => none

/-- The no-hit branch of `fireEvents()`, lines 203-215. -/
def PickController.fireEventsMiss (objects : String → Option String)
    (s : PickController) : PickController × List HoverEv :=
  let (s1, evs1) :=
    if s.lastPickedEntityId ≠ LastId.undef then
      ({ s with lastPickedEntityId := .undef },
       [HoverEv.hoverOut (lookupObjects objects s.lastPickedEntityId)])
    else (s, [])
  -- lines 212-214, then lines 217-219
  ({ s1 with pickResult := none, needFireEvents := false },
   evs1 ++ [HoverEv.hoverOff s.pickCursorPos])

/-- `fireEvents()` (lines 171-220).  Returns the events fired on the
camera control, in order. -/
def PickController.fireEvents (objects : String → Option String)
    (s : PickController) : PickController × List HoverEv :=
  -- lines 173-175
  if !s.needFireEvents then (s, [])
  else
    match s.pickResult with
    | some r =>
      -- line 177: this.picked && this.pickResult && (entity || snappedWorldPos)
      if s.picked && (r.entity.isSome || r.snappedWorldPos.isSome) then
        -- lines 179-194
        let (s1, evs1) :=
          match r.entity with
          | some eid =>
            if s.lastPickedEntityId ≠ LastId.entId eid then
              -- lines 185-189: hoverOut is fired whenever the stale id is
              -- not undefined (the constructor initialised it to null)
              let evs0 :=
                if s.lastPickedEntityId ≠ LastId.undef then
                  [HoverEv.hoverOut (lookupObjects objects s.lastPickedEntityId)]
                else []
              ({ s with lastPickedEntityId := .entId eid },
               evs0 ++ [HoverEv.hoverEnter r])
            else (s, [])
          | none => (s, [])
        -- line 196
        let evs2 := [HoverEv.hover r]
        -- lines 198-201
        let (s2, evs3) :=
          if r.worldPos.isSome || r.snappedWorldPos.isSome then
            ({ s1 with pickedSurface := true }, [HoverEv.hoverSurface r])
          else (s1, [])
        ({ s2 with pickResult := none, needFireEvents := false },
         evs1 ++ evs2 ++ evs3)
      else
        s.fireEventsMiss objects
    | none => s.fireEventsMiss objects

/-! ### PickController theorems (claims C3, C8) -/

/-- Both scheduling flags are cleared by every exit of `updateQuery`. -/
theorem updateQuery_clears_flags (backend : PickBackend) (s : PickController) :
    (s.updateQuery backend).1.schedulePickEntity = false ∧
    (s.updateQuery backend).1.schedulePickSurface = false := by
  unfold PickController.updateQuery
  split <;> dsimp only <;> split <;> simp

/-- Both scheduling flags are cleared by every exit of `updateEntityCache`. -/
theorem updateEntityCache_clears_flags (backend : PickBackend) (s : PickController) :
    (s.updateEntityCache backend).1.schedulePickEntity = false ∧
    (s.updateEntityCache backend).1.schedulePickSurface = false := by
  unfold PickController.updateEntityCache
  split
  · split
    · split
      · simp
      · exact updateQuery_clears_flags backend _
    · exact updateQuery_clears_flags backend _
  · exact updateQuery_clears_flags backend _

/-- Equation form of `updateEntityCache_clears_flags`. -/
theorem updateEntityCache_clears_flags_eq (backend : PickBackend)
    (s t' : PickController) (calls : List BackendCall)
    (h : s.updateEntityCache backend = (t', calls)) :
    t'.schedulePickEntity = false ∧ t'.schedulePickSurface = false := by
  have hfl := updateEntityCache_clears_flags backend s
  rw [h] at hfl
  exact hfl

/-- C8: with pointer interaction enabled and a surface pick scheduled, if the
cached `pickResult` has a world position and its canvas position equals the
requested cursor position, `update()` reuses the cached result with no
backend query, sets `picked` and `pickedSurface`, sets `_needFireEvents`
exactly when `hoverSurface` subscribers exist, and clears both scheduling
flags; moreover every `update()` that passes the no-op guards and returns
normally leaves both scheduling flags false. -/
theorem C8_surface_cache_reuse
    (backend : PickBackend) (hasHoverSurfaceSubs : Bool) (s : PickController)
    (r : PickResult)
    (hsched : s.schedulePickSurface = true)
    (hres : s.pickResult = some r)
    (hwp : r.worldPos.isSome = true)
    (hcp : r.canvasPos = some s.pickCursorPos) :
    PickController.update true hasHoverSurfaceSubs backend s =
      Except.ok ({ s with picked := true, pickedSurface := true,
                          needFireEvents := hasHoverSurfaceSubs,
                          schedulePickEntity := false,
                          schedulePickSurface := false }, []) ∧
    (∀ (pe hs : Bool) (b : PickBackend) (t t' : PickController)
        (calls : List BackendCall),
      pe = true →
      (t.schedulePickEntity || t.schedulePickSurface) = true →
      PickController.update pe hs b t = Except.ok (t', calls) →
      t'.schedulePickEntity = false ∧ t'.schedulePickSurface = false) := by
  constructor
  · simp [PickController.update, hsched, hres, hwp, hcp]
  · intro pe hs b t t' calls hpe hsch hok
    subst hpe
    have hguard : ¬((!t.schedulePickEntity && !t.schedulePickSurface) = true) := by
      simp only [Bool.and_eq_true, Bool.not_eq_true']
      rintro ⟨h1, h2⟩
      rw [h1, h2] at hsch
      simp at hsch
    unfold PickController.update at hok
    rw [if_neg (by simp), if_neg hguard] at hok
    dsimp only at hok
    revert hok
    split
    · split
      · split
        · intro h; cases h
        · split
          · intro h
            injection h with h'
            injection h' with h1 h2
            subst h1
            simp
          · intro h
            injection h with h'
            exact updateEntityCache_clears_flags_eq b _ _ _ h'
      · intro h
        injection h with h'
        exact updateEntityCache_clears_flags_eq b _ _ _ h'
    · intro h
      injection h with h'
      exact updateEntityCache_clears_flags_eq b _ _ _ h'

/-- A cached surface pick result at canvas position (100, 50), for the C8
witness scenario. -/
def c8Result : PickResult :=
  { entity := some "E1", worldPos := some (1, 2, 3),
    canvasPos := some (100, 50), snappedWorldPos := none,
    snappedCanvasPos := none }

/-- Controller state with a surface pick scheduled at (100, 50) and `c8Result`
cached from the previous tick. -/
def c8State : PickController :=
  { PickController.init with schedulePickSurface := true,
                             pickCursorPos := (100, 50),
                             pickResult := some c8Result }

/-- A backend that never resolves anything — any query against it is
observable in the returned call list. -/
def c8Backend : PickBackend := ⟨fun _ _ => none, fun _ => none⟩

/-- Witness for `C8_surface_cache_reuse`: the spec's own scenario — a surface
pick scheduled at canvas position (100, 50) with a cached surface result at
the same position is consumed without any backend query. -/
theorem C8_surface_cache_reuse_witness :
    PickController.update true true c8Backend c8State =
      Except.ok ({ c8State with picked := true, pickedSurface := true,
                                needFireEvents := true,
                                schedulePickEntity := false,
                                schedulePickSurface := false }, []) :=
  (C8_surface_cache_reuse c8Backend true c8State c8Result rfl rfl rfl rfl).1

/-- Oracle for the hover-sequence run: the scene holds entities E1 and E2. -/
def hoverObjects : String → Option String :=
  fun s => if s = "E1" || s = "E2" then some s else none

/-- An entity-pick result (no surface data) hitting `eid` at canvas
position `p`. -/
def entityHit (eid : String) (p : Int × Int) : PickResult :=
  { entity := some eid, worldPos := none, canvasPos := some p,
    snappedWorldPos := none, snappedCanvasPos := none }

/-- A backend whose `pick` always resolves to `res` and whose `snapPick`
always misses. -/
def constBackend (res : Option PickResult) : PickBackend :=
  ⟨fun _ _ => res, fun _ => none⟩

/-- One frame tick of the hover scenario: the input collaborator schedules an
entity pick at `cursor`, then the frame runs `update()` followed by
`fireEvents()`.  Returns the post-tick state and the events fired. -/
def hoverTick (res : Option PickResult) (cursor : Int × Int)
    (s : PickController) : PickController × List HoverEv :=
  let s0 := { s with schedulePickEntity := true, pickCursorPos := cursor }
  match PickController.update true false (constBackend res) s0 with
  | .ok (s1, _) => PickController.fireEvents hoverObjects s1
  | .error _ => (s0, [])

/-- C3 (code bug): the hover event sequence across three ticks of a fresh
PickController.  Tick 1 resolves entity E1 — but because the constructor
initialises `_lastPickedEntityId` to `null` while `fireEvents` compares it
against `undefined` (line 185), the very first tick fires a spurious
`hoverOut` (with an undefined entity payload) before `hoverEnter` and
`hover`.  Tick 2 resolves E2 and behaves as the claim states.  Tick 3
resolves no entity — `update()` leaves `_needFireEvents` false (lines 84,
160-164), so `fireEvents()` returns at its guard (line 173) and fires
nothing: neither the claimed `hoverOut` nor `hoverOff` is emitted. -/
theorem C3_hover_sequence_bug :
    (let t1 := hoverTick (some (entityHit "E1" (10, 10))) (10, 10) PickController.init
     let t2 := hoverTick (some (entityHit "E2" (20, 20))) (20, 20) t1.1
     let t3 := hoverTick none (30, 30) t2.1
     t1.2 = [HoverEv.hoverOut none,
             HoverEv.hoverEnter (entityHit "E1" (10, 10)),
             HoverEv.hover (entityHit "E1" (10, 10))] ∧
     t2.2 = [HoverEv.hoverOut (some "E1"),
             HoverEv.hoverEnter (entityHit "E2" (20, 20)),
             HoverEv.hover (entityHit "E2" (20, 20))] ∧
     t3.2 = []) := by
  decide

/-! ## Component (src/unnamed/part_000)

The `Component` base class: per-instance event bus with retained-value
replay (`fire` / `on` / `off` / `once`), named attachments (`_attach`),
lifecycle ownership (`_own`), deferred updates (`_needUpdate` / `_doUpdate`)
and destruction (`destroy`).

Modelling notes, applying throughout:
* Components are JavaScript objects that outlive scene de-registration, so
  the world keeps every constructed component in `comps` forever; the
  scene's `components` registry (`Scene.js` is not among the sources —
  modelled from the spec §6 Registry service) is the separate id list
  `sceneComps`.
* The lazily created maps (`_events`, `_eventSubs`, `_subIdEvents`,
  `_attachments`, `_ownedComponents`) are observationally equivalent in
  their `null` and `{}` states — every read site either lazily initialises
  them or guards on the looked-up member — so they are modelled as plain
  association lists, reset to `[]` where the source assigns `null`.
* `_subIdMap` (`utils/Map.js` is not among the sources) is modelled from the
  spec §4.1: an id pool returning handles "unique among all currently active
  subscriptions" — a fresh counter.  `for...in` over objects keyed by those
  numeric ids enumerates in ascending numeric order, which equals insertion
  order for a monotone counter, so subscriber lists are ordinary lists.
* Callbacks are deep-embedded (`CB`): the closures the source itself
  installs, plus opaque application callbacks (`user`) and a re-firing
  application callback (`refire`) to exercise re-entrancy.  The JavaScript
  `scope` argument only determines `this` inside a callback; each embedded
  closure carries the ids it closes over, so no separate scope field is
  needed.
* Fuel: every interpreter function consumes fuel on every call; exhaustion
  returns the world unchanged with an `outOfFuel` trace marker that all
  callers propagate, so "the trace has no `outOfFuel`" certifies a complete
  run.
-/

/-- JavaScript values appearing as event payloads and retained
notifications.  A component reference is carried by its id. -/
inductive JSVal where
  | undef
  | null
  | bool (b : Bool)
  | num (n : Int)
  | str (s : String)
  | comp (id : String)
  deriving DecidableEq, Repr

/-- JavaScript truthiness of the modelled values. -/
def JSVal.truthy : JSVal → Bool
  | .undef => false
  | .null => false
  | .bool b => b
  | .num n => n != 0
  | .str s => s != ""
  | .comp _ => true

/-- JavaScript `a || b` on modelled values. -/
def JSVal.jsOr (a b : JSVal) : JSVal := if a.truthy then a else b

/-- Association-list lookup, emulating JavaScript object property access. -/
def aget {α β : Type} [DecidableEq α] : List (α × β) → α → Option β
  | [], _ => none
  | (k, v) :: rest, key => if k = key then some v else aget rest key

/-- Association-list update: an existing key keeps its position (JavaScript
property update preserves enumeration order), a new key is appended. -/
def aset {α β : Type} [DecidableEq α] : List (α × β) → α → β → List (α × β)
  | [], key, val => [(key, val)]
  | (k, v) :: rest, key, val =>
    if k = key then (k, val) :: rest else (k, v) :: aset rest key val

/-- Association-list delete, emulating the JavaScript `delete` operator. -/
def adel {α β : Type} [DecidableEq α] : List (α × β) → α → List (α × β)
  | [], _ => []
  | (k, v) :: rest, key => if k = key then rest else (k, v) :: adel rest key

/-- The configuration object handed to `_attach` for a managed child
(`componentCfg`, lines 663-679): an optional explicit id and an optional
`type` tag. -/
structure CompCfg where
  id : Option String
  ctype : Option String
  deriving DecidableEq, Repr

/-- The `params.component` argument of `_attach` (lines 640-683):
an explicit `null` (written by the re-link closure, line 795), a component
instance passed by reference, a numeric-or-string id (`utils.isNumeric` /
`utils.isString`, line 642; a numeric id is stringified by JavaScript
property lookup), or a plain config object (`utils.isObject`, line 659). -/
inductive CompArg where
  | null
  | ref (id : String)
  | byId (id : String)
  | cfg (c : CompCfg)
  deriving DecidableEq, Repr

mutual
/-- Deep-embedded subscriber callbacks:
* `user tag` — an opaque application callback; running it records
  `cbUser tag value` in the trace and changes nothing.
* `refire` — an application callback whose body is
  `component.fire(event, value, forget)` on the named component, used to
  exercise recursive event delivery.
* `relink owner params` — the closure installed by `_attach` via
  `once("destroyed", ...)` (lines 792-798): sets `params.component = null`
  and re-runs `owner._attach(params)`.
* `dirtyFwd owner` — the closure installed by `_attach` on `"dirty"`
  (lines 801-806): `owner.fire("dirty", owner)`.
* `ownCleanup owner child` — the closure installed by `_own` via
  `once("destroyed", ...)` (lines 922-924): deletes the child from the
  owner's `_ownedComponents`.
* `onceWrap self subId inner` — the wrapper built by `once`
  (lines 524-530): `self.off(subId)` then `inner(value)`; `subId` is the
  captured local variable, still unassigned (`none`) if the wrapper runs
  during the subscribe-time replay. -/
inductive CB where
  | user (tag : Nat)
  | refire (cid : String) (event : String) (value : JSVal) (forget : Bool)
  | relink (ownerId : String) (params : AttachParams)
  | dirtyFwd (ownerId : String)
  | ownCleanup (ownerId : String) (childId : String)
  | onceWrap (selfId : String) (subId : Option Nat) (inner : CB)

/-- The `params` object of `_attach` (lines 604-619).  `onAttached` /
`onDetached` are opaque application callbacks carried as tags (the
function-vs-`{callback, scope}` distinction only affects `this` inside the
opaque body); `onMap` is `params.on`; `component = none` is an absent
(undefined) argument. -/
inductive AttachParams where
  | mk (name : String) (component : Option CompArg) (typeReq : Option String)
       (sceneDefault : Bool) (sceneSingleton : Bool)
       (onAttached : Option Nat) (onDetached : Option Nat)
       (onMap : List (String × CB)) (recompiles : Bool)
end

/-- The attachment slot name, `params.name`. -/
def AttachParams.name : AttachParams → String
  | .mk n _ _ _ _ _ _ _ _ => n

/-- The component argument, `params.component`. -/
def AttachParams.component : AttachParams → Option CompArg
  | .mk _ c _ _ _ _ _ _ _ => c

/-- The expected type, `params.type`. -/
def AttachParams.typeReq : AttachParams → Option String
  | .mk _ _ t _ _ _ _ _ _ => t

/-- `params.sceneDefault` (default false). -/
def AttachParams.sceneDefault : AttachParams → Bool
  | .mk _ _ _ d _ _ _ _ _ => d

/-- `params.sceneSingleton` (default false). -/
def AttachParams.sceneSingleton : AttachParams → Bool
  | .mk _ _ _ _ s _ _ _ _ => s

/-- `params.onAttached`, as an opaque callback tag. -/
def AttachParams.onAttached : AttachParams → Option Nat
  | .mk _ _ _ _ _ a _ _ _ => a

/-- `params.onDetached`, as an opaque callback tag. -/
def AttachParams.onDetached : AttachParams → Option Nat
  | .mk _ _ _ _ _ _ d _ _ => d

/-- `params.on`, the map of extra subscriptions to make on the attached
component. -/
def AttachParams.onMap : AttachParams → List (String × CB)
  | .mk _ _ _ _ _ _ _ m _ => m

/-- `params.recompiles !== false` (line 635). -/
def AttachParams.recompiles : AttachParams → Bool
  | .mk _ _ _ _ _ _ _ _ r => r

/-- The mutation `attachment.params.component = null` performed by the
re-link closure (line 795). -/
def AttachParams.setComponent : AttachParams → Option CompArg → AttachParams
  | .mk n _ t d s a dt m r, c => .mk n c t d s a dt m r

/-- One entry of `_attachments` (lines 785-790): the attach-call params, the
attached component (by id), the recorded subscription handles — `none` for
the handle of the `once("destroyed", ...)` subscription, because `once` has
no return statement (lines 523-531) and the pushed value is `undefined` —
and the lifecycle-management flag. -/
structure Attachment where
  params : AttachParams
  component : String
  subs : List (Option Nat)
  managingLifecycle : Bool

/-- The per-component state (constructor lines 243-319).  `ctype` is the
`type` getter (the class tag, `"Component"` for the base class), `sceneId`
is `this.scene`.  Fields irrelevant to the verified operations
(`meta`, `_dontClear`, `_renderer`, `viewer`) are omitted.  `subIdNext` is
the `_subIdMap` id-pool counter (see the modelling notes). -/
structure Comp where
  id : String
  ctype : String
  sceneId : String
  destroyed : Bool
  attached : List (String × String)
  attachments : List (String × Attachment)
  subIdNext : Nat
  subIdEvents : List (Nat × String)
  eventSubs : List (String × List (Nat × CB))
  events : List (String × JSVal)
  eventCallDepth : Nat
  ownedComponents : List (String × String)
  updateScheduled : Bool

/-- A fresh component record, as the constructor leaves it before
registration. -/
def Comp.fresh (cid ctype sceneId : String) : Comp :=
  { id := cid, ctype := ctype, sceneId := sceneId, destroyed := false,
    attached := [], attachments := [], subIdNext := 0, subIdEvents := [],
    eventSubs := [], events := [], eventCallDepth := 0,
    ownedComponents := [], updateScheduled := false }

/-- The world: every constructed component object (never removed — a
JavaScript object survives de-registration), the scene registry, the scene
id, the deferred-task queue of `core.scheduleTask` (modelled from the spec
§6 Task scheduler: component ids whose `_doUpdate` is queued) and the
auto-id counter of the registry (modelled from the spec §4.1). -/
structure World where
  comps : List (String × Comp)
  sceneComps : List String
  sceneId : String
  tasks : List String
  nextAutoId : Nat

/-- Component lookup by id. -/
def World.get (w : World) (cid : String) : Option Comp := aget w.comps cid

/-- Replace a component's record. -/
def World.put (w : World) (cid : String) (c : Comp) : World :=
  { w with comps := aset w.comps cid c }

/-- Update a component's record in place (no-op for an unknown id). -/
def World.upd (w : World) (cid : String) (f : Comp → Comp) : World :=
  match w.get cid with
  | some c => w.put cid (f c)
  | none => w

/-- Observable execution events.
* `fired c e v` — a `fire(e, v, _)` call ran on component `c`;
* `delivered c e sid v` — `fire` invoked the subscriber `sid`
  (line 435);
* `cbUser tag v` — an opaque application callback body ran with payload `v`
  (from delivery or subscribe-time replay);
* `errorMsg c m` — `error(m)` reported to the console (line 594; the
  `[ERROR] [<type> <id>]:` formatting of `_message` is carried by `c`);
* `updateHook c` — `_doUpdate` invoked the subclass `_update` hook;
* `attachedCb` / `detachedCb` — the `onAttached` / `onDetached` params
  callbacks;
* `jsThrow c` — a TypeError the source would raise (never reached from
  well-formed states);
* `outOfFuel` — the interpreter ran out of fuel. -/
inductive TraceEv where
  | fired (cid : String) (event : String) (value : JSVal)
  | delivered (cid : String) (event : String) (subId : Nat) (value : JSVal)
  | cbUser (tag : Nat) (value : JSVal)
  | errorMsg (cid : String) (msg : String)
  | updateHook (cid : String)
  | attachedCb (tag : Nat) (compId : String)
  | detachedCb (tag : Nat) (compId : String)
  | jsThrow (cid : String)
  | outOfFuel
  deriving DecidableEq, Repr

/-- `off(subId)` (lines 494-510).  `_subIdMap.removeItem` releases the id to
the pool; under the fresh-counter model this is a no-op (handles stay unique
among active subscriptions, which is all the source relies on). -/
def offOp (w : World) (cid : String) (subId : Option Nat) : World :=
  match subId with
  | none => w
  | some sid =>
    w.upd cid fun c =>
      match aget c.subIdEvents sid with
      | none => c
      | some event =>
        if event = "" then c
        else
          let c := { c with subIdEvents := adel c.subIdEvents sid }
          match aget c.eventSubs event with
          | none => c
          | some subs => { c with eventSubs := aset c.eventSubs event (adel subs sid) }

/-- `hasSubs(event)` (lines 540-542): true iff the per-event subscriber
object exists — `on` creates it and `off` only deletes members, so it can be
present and empty. -/
def hasSubsOp (c : Comp) (event : String) : Bool :=
  (aget c.eventSubs event).isSome

/-- `_doUpdate()` (lines 946-953): when an update is scheduled, clear the
flag first and then run the `_update` hook (always defined on the class,
line 961; its subclass body is opaque and recorded as `updateHook`). -/
def doUpdateOp (w : World) (cid : String) : World × List TraceEv :=
  match w.get cid with
  | none => (w, [.jsThrow cid])
  | some c =>
    if c.updateScheduled then
      (w.put cid { c with updateScheduled := false }, [.updateHook cid])
    else (w, [])

/-- `_needUpdate(priority)` (lines 932-941): coalesces requests; priority 0
runs `_doUpdate` synchronously, any other priority enqueues it with
`core.scheduleTask` (modelled from the spec §6: appended to the world's task
queue). -/
def needUpdateOp (w : World) (cid : String) (priority : Int) : World × List TraceEv :=
  match w.get cid with
  | none => (w, [.jsThrow cid])
  | some c =>
    if c.updateScheduled then (w, [])
    else
      let w1 := w.put cid { c with updateScheduled := true }
      if priority = 0 then doUpdateOp w1 cid
      else ({ w1 with tasks := w1.tasks ++ [cid] }, [])

/-- The external scheduler delivering one queued `_doUpdate` callback
(modelled from the spec §6 Task scheduler). -/
def runTask (w : World) : World × List TraceEv :=
  match w.tasks with
  | [] => (w, [])
  | cid :: rest => doUpdateOp { w with tasks := rest } cid

/-- `this.scene.components[id]` (line 649): registry lookup — modelled from
the spec §6 Registry service `lookupById`. -/
def sceneLookup (w : World) (i : String) : Option String :=
  if w.sceneComps.contains i ∧ (w.get i).isSome then some i else none

/-- First instance in `this.scene.types[type]` (lines 691-697; `Scene.js` is
not among the sources — modelled from the spec §6 `lookupByType`).  With an
undefined type the JavaScript loop body never runs. -/
def sceneFirstOfType (w : World) (t : Option String) : Option String :=
  match t with
  | none => none
  | some ty => w.sceneComps.find? fun i => ((w.get i).map Comp.ctype) = some ty

/-- `core.isComponentType` (`core.js` is not among the sources — modelled
from the spec §4.1: type identity is the declared tag, no hierarchical
walk). -/
def isComponentType (a b : String) : Bool := a = b

/-- The table resets of `destroy()` (lines 1036-1045). -/
def Comp.resetTables (c : Comp) : Comp :=
  { c with attached := [], attachments := [], subIdNext := 0, subIdEvents := [],
           eventSubs := [], events := [], eventCallDepth := 0,
           ownedComponents := [], updateScheduled := false }

/-- The assignment `this.destroyed = true` evaluated while building the
argument of the final `fire` (line 1051). -/
def Comp.markDestroyed (c : Comp) : Comp := { c with destroyed := true }

/-- `componentClasses` — the type-tag registry consulted at line 665
(modelled from the spec §9: an explicit registry of factories; this
development registers the base class only). -/
def componentClasses : List String := ["Component"]

mutual

/-- `fire(event, value, forget)` (lines 417-443): retain `value || true`
unless `forget === true` (lines 424-426), then notify the current
subscribers.  The source message at line 437 quotes the event name; the
quotes are dropped here. -/
def fireOp : Nat → World → String → String → JSVal → Bool → World × List TraceEv
  | 0, w, _, _, _, _ => (w, [.outOfFuel])
  | fuel+1, w, cid, event, value, forget =>
    match w.get cid with
    | none => (w, [.jsThrow cid])
    | some c =>
      let c1 :=
        if !forget then { c with events := aset c.events event (value.jsOr (.bool true)) }
        else c
      let w1 := w.put cid c1
      match aget c1.eventSubs event with
      | none => (w1, [.fired cid event value])
      | some subs =>
        let r := deliverSubs fuel w1 cid event value subs
        (r.1, .fired cid event value :: r.2)

/-- The subscriber loop of `fire` (lines 429-441): `for...in` over the live
subscriber object — iterate the snapshot of entries, re-reading each one
(the `hasOwnProperty` guard plus `for...in` semantics skip entries deleted
mid-iteration).  Each delivery increments `_eventCallDepth`, runs the
callback only below the depth limit of 300, reports an `error` otherwise,
and decrements the counter again. -/
def deliverSubs : Nat → World → String → String → JSVal → List (Nat × CB) → World × List TraceEv
  | 0, w, _, _, _, _ => (w, [.outOfFuel])
  | _+1, w, _, _, _, [] => (w, [])
  | fuel+1, w, cid, event, value, (sid, _) :: rest =>
    match w.get cid with
    | none => (w, [.jsThrow cid])
    | some c =>
      match (aget c.eventSubs event).bind (fun subs => aget subs sid) with
      | none => deliverSubs fuel w cid event value rest
      | some cb =>
        let c1 := { c with eventCallDepth := c.eventCallDepth + 1 }
        let w1 := w.put cid c1
        if c1.eventCallDepth < 300 then
          let r2 := runCB fuel w1 cb value
          let w3 := r2.1.upd cid fun c => { c with eventCallDepth := c.eventCallDepth - 1 }
          let r4 := deliverSubs fuel w3 cid event value rest
          (r4.1, .delivered cid event sid value :: (r2.2 ++ r4.2))
        else
          let r2 := errorOp fuel w1 cid
            ("fire: potential stack overflow from recursive event " ++ event ++ " - dropping this event")
          let w3 := r2.1.upd cid fun c => { c with eventCallDepth := c.eventCallDepth - 1 }
          let r4 := deliverSubs fuel w3 cid event value rest
          (r4.1, r2.2 ++ r4.2)

/-- `error(message)` (lines 593-597): console report (the `errorMsg` trace
entry; the `_message` / `utils.inQuotes` formatting is carried by the trace
fields) followed by `this.scene.fire("error", message)`. -/
def errorOp : Nat → World → String → String → World × List TraceEv
  | 0, w, _, _ => (w, [.outOfFuel])
  | fuel+1, w, cid, message =>
    match w.get cid with
    | none => (w, [.jsThrow cid])
    | some c =>
      let r := fireOp fuel w c.sceneId "error" (.str message) false
      (r.1, .errorMsg cid message :: r.2)

/-- Run one deep-embedded callback (see `CB`). -/
def runCB : Nat → World → CB → JSVal → World × List TraceEv
  | 0, w, _, _ => (w, [.outOfFuel])
  | fuel+1, w, cb, value =>
    match cb with
    | .user tag => (w, [.cbUser tag value])
    | .refire cid event v forget => fireOp fuel w cid event v forget
    | .relink ownerId params =>
      let r := attachOp fuel w ownerId (params.setComponent (some .null))
      (r.1, r.2.1)
    | .dirtyFwd ownerId => fireOp fuel w ownerId "dirty" (.comp ownerId) false
    | .ownCleanup ownerId childId =>
      (w.upd ownerId (fun c =>
        { c with ownedComponents := adel c.ownedComponents childId }), [])
    | .onceWrap selfId subId inner =>
      let w1 := offOp w selfId subId
      runCB fuel w1 inner value

/-- `on(event, callback, scope)` (lines 456-485): allocate a handle,
register the subscription, then — if a retained notification exists —
invoke the callback immediately (line 482, a direct call with no depth
guard) before returning the handle. -/
def onOp : Nat → World → String → String → CB → World × List TraceEv × Option Nat
  | 0, w, _, _, _ => (w, [.outOfFuel], none)
  | fuel+1, w, cid, event, cb =>
    match w.get cid with
    | none => (w, [.jsThrow cid], none)
    | some c =>
      let subs := (aget c.eventSubs event).getD []
      let sid := c.subIdNext
      let c1 := { c with subIdNext := sid + 1,
                         eventSubs := aset c.eventSubs event (aset subs sid cb),
                         subIdEvents := aset c.subIdEvents sid event }
      let w1 := w.put cid c1
      match aget c1.events event with
      | none => (w1, [], some sid)
      | some v =>
        let r := runCB fuel w1 cb v
        (r.1, r.2, some sid)

/-- `once(event, callback, scope)` (lines 523-531).  The wrapper closure
captures the local `subId`, which is still undefined when the retained-event
replay inside `on` runs the wrapper; after `on` returns, the captured
variable holds the allocated id — modelled by registering the wrapper with
`none` and patching the stored entry afterwards.  `once` itself has no
return statement: its value is `undefined`. -/
def onceOp : Nat → World → String → String → CB → World × List TraceEv
  | 0, w, _, _, _ => (w, [.outOfFuel])
  | fuel+1, w, cid, event, inner =>
    let r := onOp fuel w cid event (.onceWrap cid none inner)
    let w1 := r.1
    let t1 := r.2.1
    match r.2.2 with
    | none => (w1, t1)
    | some s =>
      (w1.upd cid (fun c =>
        match aget c.eventSubs event with
        | none => c
        | some subs =>
          match aget subs s with
          | some (.onceWrap selfId _ innr) =>
            { c with eventSubs := aset c.eventSubs event
                       (aset subs s (.onceWrap selfId (some s) innr)) }
          | _ => c), t1)

/-- `_own(component)` (lines 915-925): record the child, then subscribe
`once("destroyed", ...)` on it to remove the record. -/
def ownOp : Nat → World → String → String → World × List TraceEv
  | 0, w, _, _ => (w, [.outOfFuel])
  | fuel+1, w, ownerId, childId =>
    match w.get ownerId with
    | none => (w, [.jsThrow ownerId])
    | some oc =>
      let w1 :=
        if (aget oc.ownedComponents childId).isNone then
          w.put ownerId { oc with ownedComponents := aset oc.ownedComponents childId childId }
        else w
      onceOp fuel w1 childId "destroyed" (.ownCleanup ownerId childId)

/-- The constructor (lines 243-319) for a non-Scene component: derive
`this.scene` from the owner (an invalid owner throws, line 266), register in
the scene (`_addComponent` is not among the sources — modelled from the spec
§4.1: the id is auto-assigned when absent or colliding), then
`owner._own(this)` (lines 316-318). -/
def constructOp : Nat → World → String → CompCfg → String → World × List TraceEv × Option String
  | 0, w, _, _, _ => (w, [.outOfFuel], none)
  | fuel+1, w, ownerId, cfg, ctype =>
    match w.get ownerId with
    | none => (w, [.jsThrow ownerId], none)
    | some oc =>
      let sceneId := if oc.ctype = "Scene" then ownerId else oc.sceneId
      let cid :=
        match cfg.id with
        | some i => if (w.get i).isSome then "auto" ++ toString w.nextAutoId else i
        | none => "auto" ++ toString w.nextAutoId
      let w1 : World :=
        { w with comps := w.comps ++ [(cid, Comp.fresh cid ctype sceneId)],
                 sceneComps := w.sceneComps ++ [cid],
                 nextAutoId := w.nextAutoId + 1 }
      let r := ownOp fuel w1 ownerId cid
      (r.1, r.2, some cid)

/-- `destroy()` (lines 993-1052): no-op when already destroyed; otherwise
unsubscribe from and (when managed) destroy each attachment, destroy the
owned components, de-register from the scene (`_removeComponent` is not
among the sources — modelled from the spec §6 `unregisterComponent`), reset
every internal table (lines 1036-1045), and finally
`this.fire("destroyed", this.destroyed = true)` — the assignment runs
first, so the event is fired after the subscription tables were cleared. -/
def destroyOp : Nat → World → String → World × List TraceEv
  | 0, w, _ => (w, [.outOfFuel])
  | fuel+1, w, cid =>
    match w.get cid with
    | none => (w, [.jsThrow cid])
    | some c =>
      if c.destroyed then (w, [])
      else
        let r1 := destroyAttachList fuel w c.attachments
        let r2 := destroyOwnedList fuel r1.1 cid (c.ownedComponents.map Prod.fst)
        let w3 := { r2.1 with sceneComps := r2.1.sceneComps.filter (¬ · = cid) }
        let w4 := w3.upd cid Comp.resetTables
        let w5 := w4.upd cid Comp.markDestroyed
        let r6 := fireOp fuel w5 cid "destroyed" (.bool true) false
        (r6.1, r1.2 ++ r2.2 ++ r6.2)

/-- The attachments loop of `destroy` (lines 1008-1022), over the snapshot
of entries (nothing in the loop writes this map): unsubscribe every recorded
handle, destroy lifecycle-managed occupants. -/
def destroyAttachList : Nat → World → List (String × Attachment) → World × List TraceEv
  | 0, w, _ => (w, [.outOfFuel])
  | _+1, w, [] => (w, [])
  | fuel+1, w, (_, att) :: rest =>
    let w1 := att.subs.foldl (fun acc sid => offOp acc att.component sid) w
    let r2 :=
      if att.managingLifecycle then destroyOp fuel w1 att.component else (w1, [])
    let r3 := destroyAttachList fuel r2.1 rest
    (r3.1, r2.2 ++ r3.2)

/-- The owned-components loop of `destroy` (lines 1024-1032): `for...in`
over the live map — iterate the snapshot of keys, skipping any entry
already removed, destroying and deleting the rest. -/
def destroyOwnedList : Nat → World → String → List String → World × List TraceEv
  | 0, w, _, _ => (w, [.outOfFuel])
  | _+1, w, _, [] => (w, [])
  | fuel+1, w, ownerId, oid :: rest =>
    match w.get ownerId with
    | none => (w, [.jsThrow ownerId])
    | some oc =>
      match aget oc.ownedComponents oid with
      | none => destroyOwnedList fuel w ownerId rest
      | some _ =>
        let r1 := destroyOp fuel w oid
        let w2 := r1.1.upd ownerId fun c =>
          { c with ownedComponents := adel c.ownedComponents oid }
        let r3 := destroyOwnedList fuel w2 ownerId rest
        (r3.1, r1.2 ++ r3.2)

/-- `_attach(params)` (lines 621-861), resolution phase (lines 623-715):
validate the name, resolve the component argument — registry lookup for an
id, construction for a config object (lines 659-682, the new component's
owner is `this.scene`, so the scene comes to own it), scene
singleton/default fallbacks for an absent argument (lines 685-715; this
scene-equivalent exposes no `scene[name]` defaults, modelled from the spec
§4.1, so `sceneDefault` always reports the missing-default error).  Source
error messages quote ids; the quotes are dropped here. -/
def attachOp : Nat → World → String → AttachParams → World × List TraceEv × Option String
  | 0, w, _, _ => (w, [.outOfFuel], none)
  | fuel+1, w, cid, params =>
    match w.get cid with
    | none => (w, [.jsThrow cid], none)
    | some this_ =>
      if params.name = "" then
        let r := errorOp fuel w cid "Component name expected"
        (r.1, r.2, none)
      else
        match params.component with
        | some (.byId i) =>
          match sceneLookup w i with
          | none =>
            let r := errorOp fuel w cid ("Component not found: " ++ i)
            (r.1, r.2, none)
          | some rid => attachResolved fuel w cid params (some rid) false
        | some (.cfg c) =>
          let componentType := c.ctype.getD (params.typeReq.getD "Component")
          if !componentClasses.contains componentType then
            let r := errorOp fuel w cid ("Component type not found: " ++ componentType)
            (r.1, r.2, none)
          else if (match params.typeReq with
                   | some t => !isComponentType componentType t
                   | none => false) then
            let r := errorOp fuel w cid
              ("Expected a " ++ params.typeReq.getD "" ++ " type or subtype, not a " ++ componentType)
            (r.1, r.2, none)
          else
            let rC := constructOp fuel w this_.sceneId c componentType
            match rC.2.2 with
            | none => (rC.1, rC.2.1, none)
            | some rid =>
              let rA := attachResolved fuel rC.1 cid params (some rid) true
              (rA.1, rC.2.1 ++ rA.2.1, rA.2.2)
        | some (.ref r) => attachResolved fuel w cid params (some r) false
        | some .null | none =>
          if params.sceneSingleton then
            match sceneFirstOfType w params.typeReq with
            | some rid => attachResolved fuel w cid params (some rid) false
            | none =>
              let r := errorOp fuel w cid
                ("Scene has no default component for " ++ params.name)
              (r.1, r.2, none)
          else if params.sceneDefault then
            let r := errorOp fuel w cid
              ("Scene has no default component for " ++ params.name)
            (r.1, r.2, none)
          else attachResolved fuel w cid params none false

/-- `_attach`, validation phase (lines 717-731): a resolved component must
belong to the same scene and satisfy `isType` (string equality on the type
tag, lines 402-404). -/
def attachResolved : Nat → World → String → AttachParams → Option String → Bool → World × List TraceEv × Option String
  | 0, w, _, _, _, _ => (w, [.outOfFuel], none)
  | fuel+1, w, cid, params, comp?, managing =>
    match w.get cid with
    | none => (w, [.jsThrow cid], none)
    | some this_ =>
      match comp? with
      | none => attachCore fuel w cid params none managing
      | some rid =>
        match w.get rid with
        | none => (w, [.jsThrow rid], none)
        | some rc =>
          if rc.sceneId ≠ this_.sceneId then
            let r := errorOp fuel w cid
              ("Not in same scene: " ++ rc.ctype ++ " " ++ rid)
            (r.1, r.2, none)
          else
            match params.typeReq with
            | some t =>
              if rc.ctype ≠ t then
                let r := errorOp fuel w cid
                  ("Expected a " ++ t ++ " type or subtype: " ++ rc.ctype ++ " " ++ rid)
                (r.1, r.2, none)
              else attachCore fuel w cid params (some rid) managing
            | none => attachCore fuel w cid params (some rid) managing

/-- `_attach`, detach-before-attach phase (lines 733-779): when the name is
occupied, reattaching the same component returns early (lines 744-748,
value `undefined`); otherwise unsubscribe the recorded handles from the old
occupant, drop it from both tables, run `onDetached`, and destroy it iff its
attachment was lifecycle-managed. -/
def attachCore : Nat → World → String → AttachParams → Option String → Bool → World × List TraceEv × Option String
  | 0, w, _, _, _, _ => (w, [.outOfFuel], none)
  | fuel+1, w, cid, params, comp?, managing =>
    match w.get cid with
    | none => (w, [.jsThrow cid], none)
    | some this_ =>
      match aget this_.attached params.name with
      | none => attachNew fuel w cid params comp? managing
      | some oldId =>
        if comp? = some oldId then (w, [], none)
        else
          match aget this_.attachments oldId with
          | none => (w, [.jsThrow cid], none)
          | some oldAtt =>
            let w1 := oldAtt.subs.foldl (fun acc sid => offOp acc oldId sid) w
            let w2 := w1.upd cid fun c =>
              { c with attached := adel c.attached params.name,
                       attachments := adel c.attachments oldId }
            let t0 :=
              match oldAtt.params.onDetached with
              | some tag => [TraceEv.detachedCb tag oldId]
              | none => []
            let r3 :=
              if oldAtt.managingLifecycle then destroyOp fuel w2 oldId else (w2, [])
            let r4 := attachNew fuel r3.1 cid params comp? managing
            (r4.1, t0 ++ r3.2 ++ r4.2.1, r4.2.2)

/-- `_attach`, attach phase (lines 781-860): record the new occupant,
subscribe `once("destroyed", relink)` (the pushed handle is the `undefined`
return of `once`), forward `dirty` when `recompiles`, store the attachment,
run `onAttached`, make the `params.on` subscriptions (their handles are
pushed into the stored attachment), then fire `dirty` (when `recompiles`)
and the slot-name event with the resolved component — or `null` /
`undefined` mirroring the unresolved argument — as payload. -/
def attachNew : Nat → World → String → AttachParams → Option String → Bool → World × List TraceEv × Option String
  | 0, w, _, _, _, _ => (w, [.outOfFuel], none)
  | fuel+1, w, cid, params, comp?, managing =>
    let rNew : World × List TraceEv :=
      match comp? with
      | none => (w, [])
      | some rid =>
        let r1 := onceOp fuel w rid "destroyed" (.relink cid params)
        let r2 : World × List TraceEv × List (Option Nat) :=
          if params.recompiles then
            let rOn := onOp fuel r1.1 rid "dirty" (.dirtyFwd cid)
            (rOn.1, rOn.2.1, [(none : Option Nat), rOn.2.2])
          else (r1.1, ([] : List TraceEv), [(none : Option Nat)])
        let att0 : Attachment := ⟨params, rid, r2.2.2, managing⟩
        let w3 := r2.1.upd cid fun c =>
          { c with attached := aset c.attached params.name rid,
                   attachments := aset c.attachments rid att0 }
        let tA :=
          match params.onAttached with
          | some tag => [TraceEv.attachedCb tag rid]
          | none => []
        let r4 := attachOnL fuel w3 rid params.onMap
        let w5 := r4.1.upd cid fun c =>
          match aget c.attachments rid with
          | some a =>
            let a2 := { a with subs := a.subs ++ r4.2.2 }
            { c with attachments := aset c.attachments rid a2 }
          | none => c
        (w5, r1.2 ++ r2.2.1 ++ tA ++ r4.2.1)
    let r6 :=
      if params.recompiles then fireOp fuel rNew.1 cid "dirty" (.comp cid) false
      else (rNew.1, [])
    let payload :=
      match comp? with
      | some rid => JSVal.comp rid
      | none =>
        match params.component with
        | some .null => JSVal.null
        | _ => JSVal.undef
    let r7 := fireOp fuel r6.1 cid params.name payload false
    (r7.1, rNew.2 ++ r6.2 ++ r7.2, comp?)

/-- The `params.on` subscription loop of `_attach` (lines 824-851),
collecting the pushed handles. -/
def attachOnL : Nat → World → String → List (String × CB) → World × List TraceEv × List (Option Nat)
  | 0, w, _, _ => (w, [.outOfFuel], [])
  | _+1, w, _, [] => (w, [], [])
  | fuel+1, w, rid, (event, cb) :: rest =>
    let r1 := onOp fuel w rid event cb
    let r2 := attachOnL fuel r1.1 rid rest
    (r2.1, r1.2.1 ++ r2.2.1, r1.2.2 :: r2.2.2)

end

/-! ### Association-list and world lemmas -/

theorem aget_aset_self {α β : Type} [DecidableEq α] (l : List (α × β)) (k : α) (v : β) :
    aget (aset l k v) k = some v := by
  induction l with
  | nil => simp [aget, aset]
  | cons p rest ih =>
    by_cases h : p.1 = k
    · simp [aget, aset, h]
    · simp [aget, aset, h, ih]

theorem aget_aset_ne {α β : Type} [DecidableEq α] (l : List (α × β)) (k k' : α) (v : β)
    (h : k ≠ k') : aget (aset l k v) k' = aget l k' := by
  induction l with
  | nil => simp [aget, aset, h]
  | cons p rest ih =>
    by_cases hp : p.1 = k
    · simp [aget, aset, hp, h]
    · simp [aget, aset, hp, ih]

theorem aset_self {α β : Type} [DecidableEq α] (l : List (α × β)) (k : α) (v : β)
    (h : aget l k = some v) : aset l k v = l := by
  induction l with
  | nil => simp [aget] at h
  | cons p rest ih =>
    by_cases hp : p.1 = k
    · simp [aget, hp] at h
      cases p with
      | mk a b => simp at hp; subst hp; simp [aset]; simp at h; exact h.symm
    · simp [aget, hp] at h
      simp [aset, hp, ih h]

theorem aget_isSome_aset {α β : Type} [DecidableEq α] (l : List (α × β)) (k x : α) (v : β)
    (h : (aget l x).isSome = true) : (aget (aset l k v) x).isSome = true := by
  by_cases hk : k = x
  · subst hk; simp [aget_aset_self]
  · rw [aget_aset_ne _ _ _ _ hk]; exact h

theorem aget_isSome_append {α β : Type} [DecidableEq α] (l e : List (α × β)) (x : α)
    (h : (aget l x).isSome = true) : (aget (l ++ e) x).isSome = true := by
  induction l with
  | nil => simp [aget] at h
  | cons p rest ih =>
    by_cases hp : p.1 = x
    · simp [aget, hp]
    · simp [aget, hp] at h ⊢; exact ih h

theorem World.get_put_self (w : World) (cid : String) (c : Comp) :
    (w.put cid c).get cid = some c := by
  simp [World.get, World.put, aget_aset_self]

theorem World.get_put_ne (w : World) (cid x : String) (c : Comp) (h : cid ≠ x) :
    (w.put cid c).get x = w.get x := by
  simp [World.get, World.put, aget_aset_ne _ _ _ _ h]

theorem World.put_self (w : World) (cid : String) (c : Comp)
    (h : w.get cid = some c) : w.put cid c = w := by
  simp [World.get] at h
  simp [World.put, aset_self _ _ _ h]

/-- `presv w w'`: every component present in `w` is still present in `w'`
(the world never forgets a constructed JavaScript object). -/
def presv (w w' : World) : Prop :=
  ∀ x, ((w.get x).isSome = true) → ((w'.get x).isSome = true)

theorem presv_refl (w : World) : presv w w := fun _ h => h

theorem presv_trans {w1 w2 w3 : World} (h1 : presv w1 w2) (h2 : presv w2 w3) :
    presv w1 w3 := fun x h => h2 x (h1 x h)

theorem presv_of_comps_eq {w w' : World} (h : w'.comps = w.comps) : presv w w' := by
  intro x hx
  simp [World.get, h]
  simpa [World.get] using hx

theorem presv_put (w : World) (cid : String) (c : Comp) : presv w (w.put cid c) := by
  intro x hx
  simp only [World.get, World.put] at *
  exact aget_isSome_aset _ _ _ _ hx

theorem presv_upd (w : World) (cid : String) (f : Comp → Comp) :
    presv w (w.upd cid f) := by
  unfold World.upd
  cases w.get cid with
  | some c => exact presv_put w cid (f c)
  | none => exact presv_refl w

theorem presv_off (w : World) (cid : String) (sid : Option Nat) :
    presv w (offOp w cid sid) := by
  unfold offOp
  cases sid with
  | none => exact presv_refl w
  | some s => exact presv_upd w cid _

theorem presv_foldl_off (subs : List (Option Nat)) (w : World) (cid : String) :
    presv w (subs.foldl (fun acc sid => offOp acc cid sid) w) := by
  induction subs generalizing w with
  | nil => exact presv_refl w
  | cons s rest ih =>
    simp only [List.foldl]
    exact presv_trans (presv_off w cid s) (ih _)

theorem presv_of_comps_append {w w' : World} (e : List (String × Comp))
    (h : w'.comps = w.comps ++ e) : presv w w' := by
  intro x hx
  simp only [World.get, h]
  exact aget_isSome_append _ _ _ hx

theorem presv_scene (w : World) (l : List String) :
    presv w { w with sceneComps := l } := by
  intro x hx
  simpa [World.get] using hx

/-- No interpreter operation ever removes a component from the world: every
JavaScript object constructed stays reachable by id. -/
theorem presvMaster : ∀ fuel : Nat,
    (∀ w cid event value forget, presv w (fireOp fuel w cid event value forget).1) ∧
    (∀ w cid event value pend, presv w (deliverSubs fuel w cid event value pend).1) ∧
    (∀ w cid msg, presv w (errorOp fuel w cid msg).1) ∧
    (∀ w cb value, presv w (runCB fuel w cb value).1) ∧
    (∀ w cid event cb, presv w (onOp fuel w cid event cb).1) ∧
    (∀ w cid event cb, presv w (onceOp fuel w cid event cb).1) ∧
    (∀ w a b, presv w (ownOp fuel w a b).1) ∧
    (∀ w o cfg t, presv w (constructOp fuel w o cfg t).1) ∧
    (∀ w cid, presv w (destroyOp fuel w cid).1) ∧
    (∀ w l, presv w (destroyAttachList fuel w l).1) ∧
    (∀ w o l, presv w (destroyOwnedList fuel w o l).1) ∧
    (∀ w cid p, presv w (attachOp fuel w cid p).1) ∧
    (∀ w cid p c m, presv w (attachResolved fuel w cid p c m).1) ∧
    (∀ w cid p c m, presv w (attachCore fuel w cid p c m).1) ∧
    (∀ w cid p c m, presv w (attachNew fuel w cid p c m).1) ∧
    (∀ w rid l, presv w (attachOnL fuel w rid l).1) := by
  intro fuel
  induction fuel with
  | zero =>
    refine ⟨?_, ?_, ?_, ?_, ?_, ?_, ?_, ?_, ?_, ?_, ?_, ?_, ?_, ?_, ?_, ?_⟩ <;>
      intros <;> exact presv_refl _
  | succ fuel ih =>
    obtain ⟨ihF, ihD, ihE, ihR, ihOn, ihOnce, ihOwn, ihC, ihDe, ihDA, ihDO,
            ihA, ihAR, ihAC, ihAN, ihAL⟩ := ih
    refine ⟨?_, ?_, ?_, ?_, ?_, ?_, ?_, ?_, ?_, ?_, ?_, ?_, ?_, ?_, ?_, ?_⟩
    -- fireOp
    · intro w cid event value forget
      simp only [fireOp]
      cases hg : w.get cid with
      | none => exact presv_refl w
      | some c =>
        dsimp only
        cases hs : aget (if !forget then { c with events := aset c.events event (value.jsOr (.bool true)) } else c).eventSubs event with
        | none => exact presv_put _ _ _
        | some subs =>
          dsimp only
          exact presv_trans (presv_put _ _ _) (ihD _ cid event value subs)
    -- deliverSubs
    · intro w cid event value pend
      cases pend with
      | nil => exact presv_refl w
      | cons p rest =>
        obtain ⟨sid, cb0⟩ := p
        simp only [deliverSubs]
        cases hg : w.get cid with
        | none => exact presv_refl w
        | some c =>
          dsimp only
          cases hl : (aget c.eventSubs event).bind (fun subs => aget subs sid) with
          | none => exact ihD w cid event value rest
          | some cb =>
            dsimp only
            by_cases hd : c.eventCallDepth + 1 < 300
            · rw [if_pos hd]
              dsimp only
              exact presv_trans (presv_put _ _ _) (presv_trans (ihR _ cb value)
                (presv_trans (presv_upd _ _ _) (ihD _ cid event value rest)))
            · rw [if_neg hd]
              dsimp only
              exact presv_trans (presv_put _ _ _) (presv_trans (ihE _ cid _)
                (presv_trans (presv_upd _ _ _) (ihD _ cid event value rest)))
    -- errorOp
    · intro w cid msg
      simp only [errorOp]
      cases hg : w.get cid with
      | none => exact presv_refl w
      | some c =>
        dsimp only
        exact ihF w c.sceneId "error" (.str msg) false
    -- runCB
    · intro w cb value
      cases cb with
      | user tag => exact presv_refl w
      | refire cid event v forget => exact ihF w cid event v forget
      | relink ownerId params =>
        simp only [runCB]
        exact ihA w ownerId (params.setComponent (some .null))
      | dirtyFwd ownerId => exact ihF w ownerId "dirty" (.comp ownerId) false
      | ownCleanup ownerId childId => exact presv_upd w ownerId _
      | onceWrap selfId subId inner =>
        simp only [runCB]
        exact presv_trans (presv_off w selfId subId) (ihR _ inner value)
    -- onOp
    · intro w cid event cb
      simp only [onOp]
      cases hg : w.get cid with
      | none => exact presv_refl w
      | some c =>
        dsimp only
        cases hv : aget c.events event with
        | none => exact presv_put _ _ _
        | some v =>
          dsimp only
          exact presv_trans (presv_put _ _ _) (ihR _ cb v)
    -- onceOp
    · intro w cid event cb
      simp only [onceOp]
      cases hs : (onOp fuel w cid event (.onceWrap cid none cb)).2.2 with
      | none => exact ihOn w cid event (.onceWrap cid none cb)
      | some s =>
        dsimp only
        exact presv_trans (ihOn w cid event (.onceWrap cid none cb)) (presv_upd _ _ _)
    -- ownOp
    · intro w a b
      simp only [ownOp]
      cases hg : w.get a with
      | none => exact presv_refl w
      | some oc =>
        dsimp only
        by_cases hn : (aget oc.ownedComponents b).isNone = true
        · rw [if_pos hn]
          exact presv_trans (presv_put _ _ _) (ihOnce _ b "destroyed" (.ownCleanup a b))
        · rw [if_neg hn]
          exact ihOnce _ b "destroyed" (.ownCleanup a b)
    -- constructOp
    · intro w o cfg t
      simp only [constructOp]
      cases hg : w.get o with
      | none => exact presv_refl w
      | some oc =>
        dsimp only
        refine presv_trans ?_ (ihOwn _ _ _)
        exact presv_of_comps_append _ rfl
    -- destroyOp
    · intro w cid
      simp only [destroyOp]
      cases hg : w.get cid with
      | none => exact presv_refl w
      | some c =>
        dsimp only
        by_cases hd : c.destroyed = true
        · rw [if_pos hd]; exact presv_refl w
        · rw [if_neg hd]
          dsimp only
          exact presv_trans (ihDA w c.attachments)
            (presv_trans (ihDO _ cid (c.ownedComponents.map Prod.fst))
              (presv_trans (presv_scene _ _)
                (presv_trans (presv_upd _ _ _)
                  (presv_trans (presv_upd _ _ _) (ihF _ cid "destroyed" (.bool true) false)))))
    -- destroyAttachList
    · intro w l
      cases l with
      | nil => exact presv_refl w
      | cons p rest =>
        obtain ⟨k, att⟩ := p
        simp only [destroyAttachList]
        try dsimp only
        cases hm : att.managingLifecycle with
        | true =>
          simp only [if_pos rfl]
          exact presv_trans (presv_foldl_off _ _ _)
            (presv_trans (ihDe _ att.component) (ihDA _ rest))
        | false =>
          rw [if_neg (by simp)]
          exact presv_trans (presv_foldl_off _ _ _) (ihDA _ rest)
    -- destroyOwnedList
    · intro w o l
      cases l with
      | nil => exact presv_refl w
      | cons oid rest =>
        simp only [destroyOwnedList]
        cases hg : w.get o with
        | none => exact presv_refl w
        | some oc =>
          dsimp only
          cases hm : aget oc.ownedComponents oid with
          | none => exact ihDO w o rest
          | some v =>
            dsimp only
            exact presv_trans (ihDe w oid)
              (presv_trans (presv_upd _ _ _) (ihDO _ o rest))
    -- attachOp
    · intro w cid p
      simp only [attachOp]
      cases hg : w.get cid with
      | none => exact presv_refl w
      | some this_ =>
        dsimp only
        by_cases hn : p.name = ""
        · rw [if_pos hn]
          exact ihE w cid _
        · rw [if_neg hn]
          cases hc : p.component with
          | none =>
            dsimp only
            by_cases hs : p.sceneSingleton = true
            · rw [if_pos hs]
              cases hf : sceneFirstOfType w p.typeReq with
              | some rid => exact ihAR w cid p (some rid) false
              | none => exact ihE w cid _
            · rw [if_neg hs]
              by_cases hdf : p.sceneDefault = true
              · rw [if_pos hdf]
                exact ihE w cid _
              · rw [if_neg hdf]
                exact ihAR w cid p none false
          | some arg =>
            cases arg with
            | null =>
              dsimp only
              by_cases hs : p.sceneSingleton = true
              · rw [if_pos hs]
                cases hf : sceneFirstOfType w p.typeReq with
                | some rid => exact ihAR w cid p (some rid) false
                | none => exact ihE w cid _
              · rw [if_neg hs]
                by_cases hdf : p.sceneDefault = true
                · rw [if_pos hdf]
                  exact ihE w cid _
                · rw [if_neg hdf]
                  exact ihAR w cid p none false
            | ref r => exact ihAR w cid p (some r) false
            | byId i =>
              dsimp only
              cases hl : sceneLookup w i with
              | none => exact ihE w cid _
              | some rid => exact ihAR w cid p (some rid) false
            | cfg c =>
              dsimp only
              by_cases h1 : (!componentClasses.contains (c.ctype.getD (p.typeReq.getD "Component"))) = true
              · rw [if_pos h1]
                exact ihE w cid _
              · rw [if_neg h1]
                by_cases h2 : (match p.typeReq with
                    | some t => !isComponentType (c.ctype.getD (p.typeReq.getD "Component")) t
                    | none => false) = true
                · rw [if_pos h2]
                  exact ihE w cid _
                · rw [if_neg h2]
                  try dsimp only
                  cases hC : (constructOp fuel w this_.sceneId c (c.ctype.getD (p.typeReq.getD "Component"))).2.2 with
                  | none => exact ihC w this_.sceneId c _
                  | some rid =>
                    dsimp only
                    exact presv_trans (ihC w this_.sceneId c _) (ihAR _ cid p (some rid) true)
    -- attachResolved
    · intro w cid p c m
      simp only [attachResolved]
      cases hg : w.get cid with
      | none => exact presv_refl w
      | some this_ =>
        dsimp only
        cases c with
        | none => exact ihAC w cid p none m
        | some rid =>
          dsimp only
          cases hr : w.get rid with
          | none => exact presv_refl w
          | some rc =>
            dsimp only
            by_cases hs : rc.sceneId ≠ this_.sceneId
            · rw [if_pos hs]
              exact ihE w cid _
            · rw [if_neg hs]
              cases ht : p.typeReq with
              | none => exact ihAC w cid p (some rid) m
              | some t =>
                dsimp only
                by_cases hty : rc.ctype ≠ t
                · rw [if_pos hty]
                  exact ihE w cid _
                · rw [if_neg hty]
                  exact ihAC w cid p (some rid) m
    -- attachCore
    · intro w cid p c m
      simp only [attachCore]
      cases hg : w.get cid with
      | none => exact presv_refl w
      | some this_ =>
        dsimp only
        cases ha : aget this_.attached p.name with
        | none => exact ihAN w cid p c m
        | some oldId =>
          dsimp only
          by_cases he : c = some oldId
          · rw [if_pos he]; exact presv_refl w
          · rw [if_neg he]
            cases hat : aget this_.attachments oldId with
            | none => exact presv_refl w
            | some oldAtt =>
              dsimp only
              cases hm : oldAtt.managingLifecycle with
              | true =>
                simp only [if_pos rfl]
                exact presv_trans (presv_foldl_off _ _ _)
                  (presv_trans (presv_upd _ _ _)
                    (presv_trans (ihDe _ oldId) (ihAN _ cid p c m)))
              | false =>
                rw [if_neg (by simp)]
                exact presv_trans (presv_foldl_off _ _ _)
                  (presv_trans (presv_upd _ _ _) (ihAN _ cid p c m))
    -- attachNew
    · intro w cid p c m
      simp only [attachNew]
      cases c with
      | none =>
        dsimp only
        by_cases hr : p.recompiles = true
        · simp only [if_pos hr]
          exact presv_trans (ihF w cid "dirty" (.comp cid) false) (ihF _ cid p.name _ false)
        · simp only [if_neg hr]
          exact ihF w cid p.name _ false
      | some rid =>
        dsimp only
        by_cases hr : p.recompiles = true
        · simp only [if_pos hr]
          try dsimp only
          exact presv_trans (ihOnce w rid "destroyed" (.relink cid p))
            (presv_trans (ihOn _ rid "dirty" (.dirtyFwd cid))
              (presv_trans (presv_upd _ _ _)
                (presv_trans (ihAL _ rid p.onMap)
                  (presv_trans (presv_upd _ _ _)
                    (presv_trans (ihF _ cid "dirty" (.comp cid) false)
                      (ihF _ cid p.name _ false))))))
        · simp only [if_neg hr]
          try dsimp only
          exact presv_trans (ihOnce w rid "destroyed" (.relink cid p))
            (presv_trans (presv_upd _ _ _)
              (presv_trans (ihAL _ rid p.onMap)
                (presv_trans (presv_upd _ _ _) (ihF _ cid p.name _ false))))
    -- attachOnL
    · intro w rid l
      cases l with
      | nil => exact presv_refl w
      | cons p rest =>
        obtain ⟨event, cb⟩ := p
        simp only [attachOnL]
        try dsimp only
        exact presv_trans (ihOn w rid event cb) (ihAL _ rid rest)

theorem presv_fireOp (fuel : Nat) (w : World) (cid event : String) (value : JSVal)
    (forget : Bool) : presv w (fireOp fuel w cid event value forget).1 :=
  (presvMaster fuel).1 w cid event value forget

theorem presv_destroyOp (fuel : Nat) (w : World) (cid : String) :
    presv w (destroyOp fuel w cid).1 :=
  (presvMaster fuel).2.2.2.2.2.2.2.2.1 w cid

theorem presv_destroyAttachList (fuel : Nat) (w : World) (l : List (String × Attachment)) :
    presv w (destroyAttachList fuel w l).1 :=
  (presvMaster fuel).2.2.2.2.2.2.2.2.2.1 w l

theorem presv_destroyOwnedList (fuel : Nat) (w : World) (o : String) (l : List String) :
    presv w (destroyOwnedList fuel w o l).1 :=
  (presvMaster fuel).2.2.2.2.2.2.2.2.2.2.1 w o l

theorem World.get_upd_self (w : World) (cid : String) (f : Comp → Comp) :
    (w.upd cid f).get cid = (w.get cid).map f := by
  unfold World.upd
  cases h : w.get cid with
  | none => simp [h]
  | some c => simp [World.get_put_self]

theorem World.get_upd_ne (w : World) (cid x : String) (f : Comp → Comp) (h : cid ≠ x) :
    (w.upd cid f).get x = w.get x := by
  unfold World.upd
  cases hg : w.get cid with
  | none => rfl
  | some c => exact World.get_put_ne w cid x (f c) h

/-- A `fire` on a component with no subscribers for the event only stores
the retained notification. -/
theorem fireOp_noSubs (fuel : Nat) (w : World) (cid : String) (c : Comp)
    (event : String) (value : JSVal)
    (hc : w.get cid = some c) (hs : aget c.eventSubs event = none) :
    fireOp (fuel+1) w cid event value false =
      (w.put cid { c with events := aset c.events event (value.jsOr (.bool true)) },
       [.fired cid event value]) := by
  simp [fireOp, hc, hs]

/-! ### Claim theorems for the Component system -/

theorem aset_aset {α β : Type} [DecidableEq α] (l : List (α × β)) (k : α) (v v' : β) :
    aset (aset l k v) k v' = aset l k v' := by
  induction l with
  | nil => simp [aset]
  | cons p rest ih =>
    by_cases hp : p.1 = k
    · obtain ⟨a, b⟩ := p
      simp only at hp
      subst hp
      simp [aset]
    · simp [aset, hp, ih]

theorem World.put_put (w : World) (cid : String) (a b : Comp) :
    (w.put cid a).put cid b = w.put cid b := by
  simp [World.put, aset_aset]

/-- The depth counter book-keeping of one delivery (lines 433, 439) restores
the world when the callback itself left it unchanged. -/
theorem depth_restore (w : World) (cid : String) (c : Comp)
    (hc : w.get cid = some c) :
    ((w.put cid { c with eventCallDepth := c.eventCallDepth + 1 }).upd cid
      (fun x => { x with eventCallDepth := x.eventCallDepth - 1 })) = w := by
  unfold World.upd
  rw [World.get_put_self]
  dsimp only
  rw [World.put_put]
  simp only [Nat.add_sub_cancel]
  exact World.put_self w cid c hc

/-- Delivering to subscribers that are all opaque `user` callbacks leaves
the world unchanged (each delivery's depth increment is undone), delivers
every live subscription and reports no error — unless the fuel ran out. -/
theorem deliverSubs_users (pend : List (Nat × CB)) (fuel : Nat) (w : World)
    (cid event : String) (value : JSVal) (c : Comp)
    (hc : w.get cid = some c)
    (hdepth : c.eventCallDepth < 299)
    (husers : ∀ sid cb, ((aget c.eventSubs event).bind (fun subs => aget subs sid)) = some cb →
      ∃ tg, cb = CB.user tg) :
    ((deliverSubs fuel w cid event value pend).1 = w ∧
      (∀ p ∈ pend, ((aget c.eventSubs event).bind (fun subs => aget subs p.1)).isSome = true →
        TraceEv.delivered cid event p.1 value ∈ (deliverSubs fuel w cid event value pend).2) ∧
      (∀ x m, TraceEv.errorMsg x m ∉ (deliverSubs fuel w cid event value pend).2)) ∨
      .outOfFuel ∈ (deliverSubs fuel w cid event value pend).2 := by
  induction pend generalizing fuel with
  | nil =>
    cases fuel with
    | zero => right; simp [deliverSubs]
    | succ f => left; simp [deliverSubs]
  | cons p rest ih =>
    obtain ⟨sid, cb0⟩ := p
    cases fuel with
    | zero => right; simp [deliverSubs]
    | succ f =>
      simp only [deliverSubs, hc]
      try dsimp only
      cases hl : (aget c.eventSubs event).bind (fun subs => aget subs sid) with
      | none =>
        rcases ih f with ⟨hw, hdel, herr⟩ | hR
        · left
          refine ⟨hw, ?_, herr⟩
          intro q hq hsome
          rcases List.mem_cons.mp hq with hq1 | hq2
          · exfalso
            rw [hq1] at hsome
            rw [hl] at hsome
            simp at hsome
          · exact hdel q hq2 hsome
        · right; exact hR
      | some cb =>
        obtain ⟨tg, rfl⟩ := husers sid cb hl
        try dsimp only
        rw [if_pos (show c.eventCallDepth + 1 < 300 by omega)]
        cases f with
        | zero => right; simp [runCB]
        | succ f2 =>
          simp only [runCB]
          try dsimp only
          rw [depth_restore w cid c hc]
          rcases ih (f2+1) with ⟨hw, hdel, herr⟩ | hR
          · left
            refine ⟨hw, ?_, ?_⟩
            · intro q hq hsome
              rcases List.mem_cons.mp hq with hq1 | hq2
              · rw [hq1]; simp
              · have := hdel q hq2 hsome
                simp [this]
            · intro x m
              simpa using herr x m
          · right; simp [hR]

/-- A `fire` whose subscribers for the event are all opaque `user`
callbacks only stores the retained notification, unless the fuel ran
out. -/
theorem fireOp_users (fuel : Nat) (w : World) (cid event : String) (value : JSVal)
    (c : Comp) (hc : w.get cid = some c) (hdepth : c.eventCallDepth < 299)
    (husers : ∀ sid cb, ((aget c.eventSubs event).bind (fun subs => aget subs sid)) = some cb →
      ∃ tg, cb = CB.user tg) :
    (fireOp (fuel+1) w cid event value false).1 =
        w.put cid { c with events := aset c.events event (value.jsOr (.bool true)) } ∨
      .outOfFuel ∈ (fireOp (fuel+1) w cid event value false).2 := by
  cases hs : aget c.eventSubs event with
  | none =>
    left
    rw [fireOp_noSubs fuel w cid c event value hc hs]
  | some subs =>
    have hstep : fireOp (fuel+1) w cid event value false =
        ((deliverSubs fuel (w.put cid { c with events := aset c.events event (value.jsOr (.bool true)) }) cid event value subs).1,
         .fired cid event value ::
           (deliverSubs fuel (w.put cid { c with events := aset c.events event (value.jsOr (.bool true)) }) cid event value subs).2) := by
      simp [fireOp, hc, hs]
    rw [hstep]
    have hc1 : (w.put cid { c with events := aset c.events event (value.jsOr (.bool true)) }).get cid
        = some { c with events := aset c.events event (value.jsOr (.bool true)) } :=
      World.get_put_self _ _ _
    rcases deliverSubs_users subs fuel
        (w.put cid { c with events := aset c.events event (value.jsOr (.bool true)) })
        cid event value _ hc1 hdepth (by simpa using husers) with ⟨hL, _, _⟩ | hR
    · left; exact hL
    · right; simp [hR]

/-- The scene component of the concrete runs. -/
def sceneComp : Comp := Comp.fresh "S" "Scene" "S"

/-- A small concrete world: scene `S` and plain components `A`, `B`, `C`. -/
def baseWorld : World :=
  { comps := [("S", sceneComp), ("A", Comp.fresh "A" "Component" "S"),
              ("B", Comp.fresh "B" "Component" "S"), ("C", Comp.fresh "C" "Component" "S")],
    sceneComps := ["S", "A", "B", "C"], sceneId := "S", tasks := [], nextAutoId := 0 }

/-- C2 counterexample: the claim promises replay "with the last-fired
payload v" for every payload, but `fire` retains `value || true`
(line 425), so after firing `"ready"` with the falsy payload `0`, a later
`on("ready", cb)` invokes `cb` with `true`, not with `0`. -/
theorem C2_replay_counterexample :
    (onOp 10 (fireOp 10 baseWorld "A" "ready" (.num 0) false).1 "A" "ready" (.user 7)).2.1
        = [.cbUser 7 (.bool true)] ∧
    (onOp 10 (fireOp 10 baseWorld "A" "ready" (.num 0) false).1 "A" "ready" (.user 7)).2.1
        ≠ [.cbUser 7 (.num 0)] := by
  decide

/-- C2 (amended): after `fire(e, v, forget)` with `forget` not true, a later
`on(e, cb)` invokes `cb` exactly once, synchronously, before returning the
subscription handle — with the retained notification `v || true`, which is
`v` itself whenever `v` is truthy (line 425); when `e` has never been fired
(no retained notification), `on` invokes nothing and still returns a
handle.  Stated for a subscriber set of opaque application callbacks (so no
callback rewrites the retained value between the fire and the subscribe)
and below the recursion guard. -/
theorem C2_replay_amended (fuelF fuelO : Nat) (w : World) (cid : String) (c : Comp)
    (event : String) (value : JSVal) (tag : Nat)
    (hc : w.get cid = some c)
    (hdepth : c.eventCallDepth < 299)
    (husers : ∀ sid cb, ((aget c.eventSubs event).bind (fun subs => aget subs sid)) = some cb →
      ∃ tg, cb = CB.user tg) :
    (.outOfFuel ∈ (fireOp (fuelF+1) w cid event value false).2 ∨
      ((onOp (fuelO+2) (fireOp (fuelF+1) w cid event value false).1 cid event (.user tag)).2.1
          = [.cbUser tag (value.jsOr (.bool true))] ∧
        (onOp (fuelO+2) (fireOp (fuelF+1) w cid event value false).1 cid event (.user tag)).2.2
          = some c.subIdNext)) ∧
    (aget c.events event = none →
      (onOp (fuelO+2) w cid event (.user tag)).2.1 = [] ∧
      (onOp (fuelO+2) w cid event (.user tag)).2.2 = some c.subIdNext) := by
  constructor
  · rcases fireOp_users fuelF w cid event value c hc hdepth husers with hL | hR
    · right
      rw [hL]
      have hg : (w.put cid { c with events := aset c.events event (value.jsOr (.bool true)) }).get cid
          = some { c with events := aset c.events event (value.jsOr (.bool true)) } :=
        World.get_put_self _ _ _
      simp only [onOp, hg]
      try dsimp only
      rw [show aget (aset c.events event (value.jsOr (.bool true))) event
            = some (value.jsOr (.bool true)) from aget_aset_self _ _ _]
      try dsimp only
      simp [runCB]
    · left; exact hR
  · intro hnone
    simp only [onOp, hc]
    try dsimp only
    rw [hnone]
    exact ⟨rfl, rfl⟩

/-- Witness for `C2_replay_amended`: the concrete component `A`, the event
`"ready"` and the truthy payload `42` — the spec's own example, where
`v || true = v`. -/
theorem C2_replay_amended_witness :
    (.outOfFuel ∈ (fireOp 10 baseWorld "A" "ready" (.num 42) false).2 ∨
      ((onOp 10 (fireOp 10 baseWorld "A" "ready" (.num 42) false).1 "A" "ready" (.user 7)).2.1
          = [.cbUser 7 ((JSVal.num 42).jsOr (.bool true))] ∧
        (onOp 10 (fireOp 10 baseWorld "A" "ready" (.num 42) false).1 "A" "ready" (.user 7)).2.2
          = some (Comp.fresh "A" "Component" "S").subIdNext)) ∧
    (aget (Comp.fresh "A" "Component" "S").events "ready" = none →
      (onOp 10 baseWorld "A" "ready" (.user 7)).2.1 = [] ∧
      (onOp 10 baseWorld "A" "ready" (.user 7)).2.2 = some (Comp.fresh "A" "Component" "S").subIdNext) :=
  C2_replay_amended 9 8 baseWorld "A" (Comp.fresh "A" "Component" "S") "ready" (.num 42) 7
    rfl (by decide) (by intro sid cb h; simp [Comp.fresh, aget] at h)

/-- C9 counterexample: `on` has no destroyed-guard (lines 456-485).  After
destroying the concrete component `A`, a late `on("destroyed", cb)` still
registers a live subscription in the lazily recreated tables, and — because
`destroy` fired `"destroyed"` after clearing them, leaving a retained
notification — immediately invokes the callback with `true`. -/
theorem C9_late_subscribe_counterexample :
    (((destroyOp 10 baseWorld "A").1.get "A").map Comp.destroyed = some true) ∧
    (onOp 10 (destroyOp 10 baseWorld "A").1 "A" "destroyed" (.user 5)).2.1
        = [.cbUser 5 (.bool true)] ∧
    (((onOp 10 (destroyOp 10 baseWorld "A").1 "A" "destroyed" (.user 5)).1.get "A").map
        (fun c => ((aget c.eventSubs "destroyed").getD []).length)) = some 1 := by
  decide

/-- C9 (amended): a subscribe after destroy is neither rejected nor a no-op:
`on` lazily recreates the cleared tables, registers a live subscription on
the destroyed component and returns a handle; it invokes the callback
during `on` exactly when a retained notification for the event exists — in
particular `on("destroyed", cb)` runs `cb` with payload `true`, since
`destroy` retained that notification while firing to the already-cleared
subscriber table. -/
theorem C9_late_subscribe_amended (fuel : Nat) (w : World) (cid : String)
    (c : Comp) (event : String) (tag : Nat)
    (hc : w.get cid = some c) (hd : c.destroyed = true) :
    (onOp (fuel+2) w cid event (.user tag)).2.2 = some c.subIdNext ∧
    (∃ c2, (onOp (fuel+2) w cid event (.user tag)).1.get cid = some c2 ∧
      (aget c2.eventSubs event).bind (fun subs => aget subs c.subIdNext)
        = some (CB.user tag) ∧
      c2.destroyed = true) ∧
    (onOp (fuel+2) w cid event (.user tag)).2.1 =
      (match aget c.events event with
       | some v => [TraceEv.cbUser tag v]
       | none => []) := by
  simp only [onOp, hc]
  try dsimp only
  cases hv : aget c.events event with
  | none =>
    try dsimp only
    refine ⟨by trivial, ⟨_, World.get_put_self _ _ _, ?_, hd⟩, by trivial⟩
    simp [aget_aset_self]
  | some v =>
    try dsimp only
    simp only [runCB]
    try dsimp only
    refine ⟨by trivial, ⟨_, World.get_put_self _ _ _, ?_, hd⟩, by trivial⟩
    simp [aget_aset_self]

/-- The record the concrete component `A` holds after `destroy()`: tables
cleared, `destroyed` set, and the retained `destroyed` notification. -/
def deadA : Comp :=
  { id := "A", ctype := "Component", sceneId := "S", destroyed := true,
    attached := [], attachments := [], subIdNext := 0, subIdEvents := [],
    eventSubs := [], events := [("destroyed", JSVal.bool true)],
    eventCallDepth := 0, ownedComponents := [], updateScheduled := false }

/-- Witness for `C9_late_subscribe_amended`: the destroyed concrete
component `A` and the event `"destroyed"`. -/
theorem C9_late_subscribe_amended_witness :
    (onOp 10 (destroyOp 10 baseWorld "A").1 "A" "destroyed" (.user 5)).2.2 = some deadA.subIdNext ∧
    (∃ c2, (onOp 10 (destroyOp 10 baseWorld "A").1 "A" "destroyed" (.user 5)).1.get "A" = some c2 ∧
      (aget c2.eventSubs "destroyed").bind (fun subs => aget subs deadA.subIdNext)
        = some (CB.user 5) ∧
      c2.destroyed = true) ∧
    (onOp 10 (destroyOp 10 baseWorld "A").1 "A" "destroyed" (.user 5)).2.1 =
      (match aget deadA.events "destroyed" with
       | some v => [TraceEv.cbUser 5 v]
       | none => []) :=
  C9_late_subscribe_amended 8 (destroyOp 10 baseWorld "A").1 "A" deadA "destroyed" 5
    (by rfl) rfl

theorem aget_isSome_of_mem {α β : Type} [DecidableEq α] {l : List (α × β)}
    {k : α} {v : β} (h : (k, v) ∈ l) : (aget l k).isSome = true := by
  induction l with
  | nil => cases h
  | cons p rest ih =>
    rcases List.mem_cons.mp h with h1 | h2
    · simp [aget, ← h1]
    · by_cases hp : p.1 = k
      · simp [aget, hp]
      · simp [aget, hp]
        exact ih h2

/-- The depth-guard error message of `fire` (line 437; the quotes around
the event name are dropped). -/
def ovMsg (event : String) : String :=
  "fire: potential stack overflow from recursive event " ++ event ++ " - dropping this event"

/-- `error(message)` on a component whose scene retains no `"error"`
subscribers: a console report plus the retained scene notification. -/
theorem errorOp_shape (fuel : Nat) (w : World) (cid : String) (c sc : Comp)
    (msg : String)
    (hc : w.get cid = some c)
    (hsc : w.get c.sceneId = some sc)
    (hnosub : aget sc.eventSubs "error" = none) :
    errorOp (fuel+2) w cid msg =
      (w.put c.sceneId
         { sc with events := aset sc.events "error" ((JSVal.str msg).jsOr (.bool true)) },
       [.errorMsg cid msg, .fired c.sceneId "error" (.str msg)]) := by
  simp only [errorOp, hc]
  try dsimp only
  rw [fireOp_noSubs fuel w c.sceneId sc "error" (.str msg) hsc hnosub]

/-- When the per-component call depth has already reached 299, every
pending delivery is dropped: each subscriber produces only the
stack-overflow error report (lines 433-440), never a callback
invocation — unless the fuel ran out. -/
theorem deliverSubs_overflow (pend : List (Nat × CB)) (fuel : Nat) (w : World)
    (cid event : String) (value : JSVal) (c sc : Comp)
    (hc : w.get cid = some c)
    (hdepth : 299 ≤ c.eventCallDepth)
    (hne : ¬ cid = c.sceneId)
    (hsc : w.get c.sceneId = some sc)
    (hnosub : aget sc.eventSubs "error" = none)
    (hlive : ∀ p ∈ pend, ((aget c.eventSubs event).bind (fun subs => aget subs p.1)).isSome = true) :
    (deliverSubs fuel w cid event value pend).2 =
        pend.flatMap (fun _ => [TraceEv.errorMsg cid (ovMsg event),
          TraceEv.fired c.sceneId "error" (.str (ovMsg event))]) ∨
      .outOfFuel ∈ (deliverSubs fuel w cid event value pend).2 := by
  induction pend generalizing fuel w sc with
  | nil =>
    cases fuel with
    | zero => right; simp [deliverSubs]
    | succ f => left; simp [deliverSubs]
  | cons p rest ih =>
    obtain ⟨sid, cb0⟩ := p
    cases fuel with
    | zero => right; simp [deliverSubs]
    | succ f =>
      simp only [deliverSubs, hc]
      try dsimp only
      obtain ⟨cb, hl⟩ := Option.isSome_iff_exists.mp (hlive (sid, cb0) (List.mem_cons_self _ _) )
      rw [hl]
      try dsimp only
      rw [if_neg (show ¬ c.eventCallDepth + 1 < 300 by omega)]
      cases f with
      | zero => right; simp [errorOp]
      | succ f1 =>
        cases f1 with
        | zero => right; simp [errorOp, World.get_put_self, fireOp]
        | succ f2 =>
          have hc1 : (w.put cid { c with eventCallDepth := c.eventCallDepth + 1 }).get cid
              = some { c with eventCallDepth := c.eventCallDepth + 1 } :=
            World.get_put_self _ _ _
          have hsc1 : (w.put cid { c with eventCallDepth := c.eventCallDepth + 1 }).get c.sceneId
              = some sc := by
            rw [World.get_put_ne _ _ _ _ hne]; exact hsc
          rw [show f2 + 1 + 1 = f2 + 2 from rfl,
            show ("fire: potential stack overflow from recursive event " ++ event ++ " - dropping this event")
              = ovMsg event from rfl]
          rw [errorOp_shape f2 _ cid { c with eventCallDepth := c.eventCallDepth + 1 } sc
              (ovMsg event) hc1 hsc1 hnosub]
          try dsimp only
          have hw3 : ((((w.put cid { c with eventCallDepth := c.eventCallDepth + 1 }).put c.sceneId
                { sc with events := aset sc.events "error" ((JSVal.str (ovMsg event)).jsOr (.bool true)) }).upd cid
                (fun x => { x with eventCallDepth := x.eventCallDepth - 1 }))) =
              (((w.put cid { c with eventCallDepth := c.eventCallDepth + 1 }).put c.sceneId
                { sc with events := aset sc.events "error" ((JSVal.str (ovMsg event)).jsOr (.bool true)) }).put cid c) := by
            unfold World.upd
            rw [World.get_put_ne _ _ _ _ (fun h => hne h.symm), World.get_put_self]
            try dsimp only
            simp only [Nat.add_sub_cancel]
          rw [hw3]
          have hcW : ((((w.put cid { c with eventCallDepth := c.eventCallDepth + 1 }).put c.sceneId
              { sc with events := aset sc.events "error" ((JSVal.str (ovMsg event)).jsOr (.bool true)) }).put cid c).get cid)
              = some c := World.get_put_self _ _ _
          have hscW : ((((w.put cid { c with eventCallDepth := c.eventCallDepth + 1 }).put c.sceneId
              { sc with events := aset sc.events "error" ((JSVal.str (ovMsg event)).jsOr (.bool true)) }).put cid c).get c.sceneId)
              = some { sc with events := aset sc.events "error" ((JSVal.str (ovMsg event)).jsOr (.bool true)) } := by
            rw [World.get_put_ne _ _ _ _ hne, World.get_put_self]
          rcases ih (f2+2) _ _ hcW hscW (by simpa using hnosub)
              (fun q hq => hlive q (List.mem_cons_of_mem _ hq)) with hL | hR
          · left
            rw [hL]
            simp [ovMsg]
          · right
            simp [hR]

/-- The `_attach` params of the C1 run: attach the component `B`, passed by
reference, under the name `"material"`, with default settings. -/
def pmMaterial : AttachParams :=
  .mk "material" (some (.ref "B")) none false false none none [] true

/-- C1 (code bug): attaching `B` to `A` under `"material"` does install the
`once("destroyed", relink)` subscription on `B` (one `destroyed` subscriber
recorded) and publishes the slot — but a subsequent `B.destroy()` delivers
to nobody: `destroy` nulls `_eventSubs` (line 1041) before firing
`"destroyed"` (line 1051), so the whole destroy trace is the single
subscriber-less `fired` event.  `A` never fires `"material"` with `null`
and keeps the dangling `material -> B` slot, contradicting the documented
re-link-on-destroy behaviour (class docs, lines 133-148). -/
theorem C1_relink_never_fires :
    ((((attachOp 100 baseWorld "A" pmMaterial).1.get "B").map
        (fun c => ((aget c.eventSubs "destroyed").getD []).length)) = some 1) ∧
    (((attachOp 100 baseWorld "A" pmMaterial).1.get "A").map Comp.attached
        = some [("material", "B")]) ∧
    (destroyOp 100 (attachOp 100 baseWorld "A" pmMaterial).1 "B").2
        = [.fired "B" "destroyed" (.bool true)] ∧
    (((destroyOp 100 (attachOp 100 baseWorld "A" pmMaterial).1 "B").1.get "A").map
        Comp.attached = some [("material", "B")]) ∧
    (((destroyOp 100 (attachOp 100 baseWorld "A" pmMaterial).1 "B").1.get "B").map
        Comp.destroyed = some true) := by
  decide

/-- A first call to `destroy()` on a live component leaves it marked
destroyed with its subscription tables cleared and its update flag reset
(lines 1036-1051). -/
theorem destroyOp_marks (fuel : Nat) (w : World) (cid : String) (c : Comp)
    (hc : w.get cid = some c) (hd : c.destroyed = false) :
    ∃ c2, (destroyOp (fuel+1) w cid).1.get cid = some c2 ∧
      c2.destroyed = true ∧ c2.updateScheduled = false ∧ c2.eventSubs = [] := by
  simp only [destroyOp, hc]
  try dsimp only
  rw [if_neg (by simp [hd])]
  try dsimp only
  have h2 : (((destroyOwnedList fuel (destroyAttachList fuel w c.attachments).1 cid
      (c.ownedComponents.map Prod.fst)).1).get cid).isSome = true := by
    refine presv_destroyOwnedList fuel _ cid _ cid ?_
    refine presv_destroyAttachList fuel w c.attachments cid ?_
    simp [hc]
  obtain ⟨c2, hc2⟩ := Option.isSome_iff_exists.mp h2
  clear h2
  generalize hX : (destroyOwnedList fuel (destroyAttachList fuel w c.attachments).1 cid
      (c.ownedComponents.map Prod.fst)).1 = X at hc2 ⊢
  have hw5 : ((({ X with sceneComps := X.sceneComps.filter (¬ · = cid) } : World).upd cid
        Comp.resetTables).upd cid Comp.markDestroyed).get cid =
      some (Comp.markDestroyed (Comp.resetTables c2)) := by
    rw [World.get_upd_self, World.get_upd_self]
    have hg3 : (({ X with sceneComps := X.sceneComps.filter (¬ · = cid) } : World).get cid) = some c2 := hc2
    rw [hg3]
    rfl
  cases fuel with
  | zero =>
    refine ⟨Comp.markDestroyed (Comp.resetTables c2), ?_, rfl, rfl, rfl⟩
    simp only [fireOp]
    try dsimp only
    exact hw5
  | succ f =>
    rw [fireOp_noSubs f _ cid _ "destroyed" (.bool true) hw5 rfl]
    exact ⟨_, World.get_put_self _ _ _, rfl, rfl, rfl⟩

/-- C5: for every component, after `destroy()` returns the `destroyed` flag
is true, and a second `destroy()` call is a no-op — it returns with no state
change and no trace (in particular, no second `destroyed` event fires). -/
theorem C5_destroy_idempotent (fuel fuel2 : Nat) (w : World) (cid : String) (c : Comp)
    (hc : w.get cid = some c) :
    (((destroyOp (fuel+1) w cid).1.get cid).map Comp.destroyed = some true) ∧
    destroyOp (fuel2+1) (destroyOp (fuel+1) w cid).1 cid = ((destroyOp (fuel+1) w cid).1, []) := by
  have part1 : ((destroyOp (fuel+1) w cid).1.get cid).map Comp.destroyed = some true := by
    by_cases hd : c.destroyed = true
    · simp only [destroyOp, hc]
      try dsimp only
      rw [if_pos hd]
      simp [hc, hd]
    · obtain ⟨c2, hg, hdes, _, _⟩ := destroyOp_marks fuel w cid c hc (by simpa using hd)
      rw [hg]
      simp [hdes]
  refine ⟨part1, ?_⟩
  obtain ⟨c1, hc1, hdes⟩ : ∃ c1, (destroyOp (fuel+1) w cid).1.get cid = some c1 ∧ c1.destroyed = true := by
    cases hg : (destroyOp (fuel+1) w cid).1.get cid with
    | none => rw [hg] at part1; simp at part1
    | some c1 =>
      rw [hg] at part1
      simp at part1
      exact ⟨c1, rfl, part1⟩
  generalize hW : (destroyOp (fuel+1) w cid).1 = w1 at hc1 ⊢
  simp [destroyOp, hc1, hdes]

/-- C10: if `_needUpdate(priority)` with non-zero priority scheduled a
deferred `_doUpdate` (flag set, task queued), and `destroy()` runs before
the deferred task executes, then the later `_doUpdate` invocation does not
call the `_update` hook: `destroy()` resets `_updateScheduled` (line 1045)
and `_doUpdate` only runs the hook when the flag is set (line 947). -/
theorem C10_destroy_cancels_update (fuel : Nat) (w : World) (cid : String)
    (c : Comp) (p : Int)
    (hc : w.get cid = some c) (hp : ¬ p = 0)
    (hlive : c.destroyed = false) (hns : c.updateScheduled = false) :
    (((needUpdateOp w cid p).1.get cid).map Comp.updateScheduled = some true) ∧
    (needUpdateOp w cid p).1.tasks = w.tasks ++ [cid] ∧
    (((destroyOp (fuel+1) (needUpdateOp w cid p).1 cid).1.get cid).map
        Comp.updateScheduled = some false) ∧
    doUpdateOp (destroyOp (fuel+1) (needUpdateOp w cid p).1 cid).1 cid =
      ((destroyOp (fuel+1) (needUpdateOp w cid p).1 cid).1, []) := by
  have hw1 : (needUpdateOp w cid p).1 =
      { w.put cid { c with updateScheduled := true } with
        tasks := (w.put cid { c with updateScheduled := true }).tasks ++ [cid] } := by
    simp [needUpdateOp, hc, hns, hp]
  have hg1 : (needUpdateOp w cid p).1.get cid = some { c with updateScheduled := true } := by
    rw [hw1]
    simp [World.get, World.put, aget_aset_self]
  obtain ⟨c2, hg2, _, hup, _⟩ :=
    destroyOp_marks fuel (needUpdateOp w cid p).1 cid { c with updateScheduled := true }
      hg1 hlive
  refine ⟨?_, ?_, ?_, ?_⟩
  · rw [hg1]; rfl
  · rw [hw1]; rfl
  · rw [hg2]; simp [hup]
  · simp [doUpdateOp, hg2, hup]

/-- Witness for `C5_destroy_idempotent`: destroying the concrete component
`A` marks it destroyed, and a repeated `destroy()` is a no-op. -/
theorem C5_destroy_idempotent_witness :
    (((destroyOp 10 baseWorld "A").1.get "A").map Comp.destroyed = some true) ∧
    destroyOp 10 (destroyOp 10 baseWorld "A").1 "A" = ((destroyOp 10 baseWorld "A").1, []) :=
  C5_destroy_idempotent 9 9 baseWorld "A" (Comp.fresh "A" "Component" "S") rfl

/-- Witness for `C10_destroy_cancels_update`: the concrete component `A`
with priority 1. -/
theorem C10_destroy_cancels_update_witness :
    (((needUpdateOp baseWorld "A" 1).1.get "A").map Comp.updateScheduled = some true) ∧
    (needUpdateOp baseWorld "A" 1).1.tasks = baseWorld.tasks ++ ["A"] ∧
    (((destroyOp 10 (needUpdateOp baseWorld "A" 1).1 "A").1.get "A").map
        Comp.updateScheduled = some false) ∧
    doUpdateOp (destroyOp 10 (needUpdateOp baseWorld "A" 1).1 "A").1 "A" =
      ((destroyOp 10 (needUpdateOp baseWorld "A" 1).1 "A").1, []) :=
  C10_destroy_cancels_update 9 baseWorld "A" (Comp.fresh "A" "Component" "S") 1
    rfl (by decide) rfl rfl

theorem aget_isSome_of_mem_fst {α β : Type} [DecidableEq α] {l : List (α × β)} {k : α}
    (h : k ∈ l.map Prod.fst) : (aget l k).isSome = true := by
  induction l with
  | nil => simp at h
  | cons p rest ih =>
    simp only [List.map_cons, List.mem_cons] at h
    rcases h with h1 | h2
    · subst h1
      simp [aget]
    · by_cases hp : p.1 = k
      · simp [aget, hp]
      · simp only [aget, hp, if_false]
        exact ih h2

theorem aget_adel_ne {α β : Type} [DecidableEq α] (l : List (α × β)) (k x : α)
    (h : ¬ k = x) : aget (adel l k) x = aget l x := by
  induction l with
  | nil => rfl
  | cons p rest ih =>
    by_cases hp : p.1 = k
    · obtain ⟨a, b⟩ := p
      simp only at hp
      subst hp
      simp [adel, aget, h]
    · simp [adel, hp, aget, ih]

/-- Trace classifier: a subscriber-callback delivery. -/
def TraceEv.isDelivered : TraceEv → Bool
  | .delivered _ _ _ _ => true
  | _ => false

/-- Trace classifier: a console error report. -/
def TraceEv.isErrorMsg : TraceEv → Bool
  | .errorMsg _ _ => true
  | _ => false

/-- The C7 concrete run: component `A` carries a subscriber to `"loop"`
that re-fires `"loop"` on `A` from inside its own delivery, so every
delivery re-enters `fire`; the call depth starts one delivery below the
threshold. -/
def c7ChainA : Comp :=
  { id := "A", ctype := "Component", sceneId := "S", destroyed := false,
    attached := [], attachments := [], subIdNext := 1,
    subIdEvents := [(0, "loop")],
    eventSubs := [("loop", [(0, CB.refire "A" "loop" (.num 1) true)])],
    events := [], eventCallDepth := 298,
    ownedComponents := [], updateScheduled := false }

/-- A world holding `c7ChainA` and its scene. -/
def c7ChainWorld : World :=
  { comps := [("S", sceneComp), ("A", c7ChainA)],
    sceneComps := ["S", "A"], sceneId := "S", tasks := [], nextAutoId := 0 }

/-- A component sitting at the depth threshold: `_eventCallDepth = 299`,
one `"loop"` subscriber. -/
def c7DeepA : Comp :=
  { id := "A", ctype := "Component", sceneId := "S", destroyed := false,
    attached := [], attachments := [], subIdNext := 1,
    subIdEvents := [(0, "loop")],
    eventSubs := [("loop", [(0, CB.user 1)])],
    events := [], eventCallDepth := 299,
    ownedComponents := [], updateScheduled := false }

/-- A world holding `c7DeepA` and its scene. -/
def c7DeepWorld : World :=
  { comps := [("S", sceneComp), ("A", c7DeepA)],
    sceneComps := ["S", "A"], sceneId := "S", tasks := [], nextAutoId := 0 }

/-- C7 (recursion guard, lines 430-440): (1) when a `fire` happens with the
per-component call depth already at 299 (so the incremented depth reaches
the threshold of 300), every pending delivery is dropped — the trace is the
retained-fire entry followed only by the per-subscriber error report and
its scene `"error"` notification, and no subscriber callback runs; (2) below
the threshold deliveries are unaffected: with opaque application callbacks,
every live subscriber is invoked and no error is reported; (3) the concrete
self-re-firing chain `c7ChainWorld` terminates: the delivery one step below
the threshold runs, the re-entrant delivery at the threshold is dropped
with exactly one error report, no fuel is exhausted, and the call depth is
restored afterwards. -/
theorem C7_recursion_guard :
    (∀ (fuel : Nat) (w : World) (cid event : String) (value : JSVal) (fg : Bool)
        (c sc : Comp) (subs : List (Nat × CB)),
      w.get cid = some c → 299 ≤ c.eventCallDepth → ¬ cid = c.sceneId →
      w.get c.sceneId = some sc → aget sc.eventSubs "error" = none →
      aget c.eventSubs event = some subs →
      (((fireOp (fuel+1) w cid event value fg).2 =
          .fired cid event value :: subs.flatMap (fun _ =>
            [TraceEv.errorMsg cid (ovMsg event),
             TraceEv.fired c.sceneId "error" (.str (ovMsg event))]) ∧
        (∀ q v2, TraceEv.delivered cid event q v2 ∉ (fireOp (fuel+1) w cid event value fg).2)) ∨
       .outOfFuel ∈ (fireOp (fuel+1) w cid event value fg).2)) ∧
    (∀ (fuel : Nat) (w : World) (cid event : String) (value : JSVal) (c : Comp),
      w.get cid = some c → c.eventCallDepth < 299 →
      (∀ sid cb, ((aget c.eventSubs event).bind (fun subs => aget subs sid)) = some cb →
        ∃ tg, cb = CB.user tg) →
      (((∀ subs, aget c.eventSubs event = some subs →
          ∀ p ∈ subs, TraceEv.delivered cid event p.1 value
            ∈ (fireOp (fuel+1) w cid event value false).2) ∧
        (∀ x m, TraceEv.errorMsg x m ∉ (fireOp (fuel+1) w cid event value false).2)) ∨
       .outOfFuel ∈ (fireOp (fuel+1) w cid event value false).2)) ∧
    ((fireOp 10 c7ChainWorld "A" "loop" (.num 1) true).2.countP (fun e => e.isDelivered) = 1 ∧
     (fireOp 10 c7ChainWorld "A" "loop" (.num 1) true).2.countP (fun e => e.isErrorMsg) = 1 ∧
     .outOfFuel ∉ (fireOp 10 c7ChainWorld "A" "loop" (.num 1) true).2 ∧
     ((fireOp 10 c7ChainWorld "A" "loop" (.num 1) true).1.get "A").map Comp.eventCallDepth
       = some 298) := by
  refine ⟨?_, ?_, ?_⟩
  · intro fuel w cid event value fg c sc subs hc hdepth hne hsc hnosub hsubs
    cases fg with
    | false =>
      have hstep : fireOp (fuel+1) w cid event value false =
          ((deliverSubs fuel (w.put cid { c with events := aset c.events event (value.jsOr (.bool true)) }) cid event value subs).1,
           .fired cid event value ::
             (deliverSubs fuel (w.put cid { c with events := aset c.events event (value.jsOr (.bool true)) }) cid event value subs).2) := by
        simp [fireOp, hc, hsubs]
      rw [hstep]
      have hc1 : (w.put cid { c with events := aset c.events event (value.jsOr (.bool true)) }).get cid
          = some { c with events := aset c.events event (value.jsOr (.bool true)) } :=
        World.get_put_self _ _ _
      have hsc1 : (w.put cid { c with events := aset c.events event (value.jsOr (.bool true)) }).get c.sceneId
          = some sc := by
        rw [World.get_put_ne _ _ _ _ hne]; exact hsc
      have hlive : ∀ p ∈ subs,
          ((aget c.eventSubs event).bind (fun s => aget s p.1)).isSome = true := by
        intro p hp
        rw [hsubs]
        exact aget_isSome_of_mem hp
      rcases deliverSubs_overflow subs fuel _ cid event value _ sc hc1 hdepth hne hsc1
          hnosub hlive with hL | hR
      · left
        constructor
        · rw [hL]
        · intro q v2 hmem
          rw [hL] at hmem
          rcases List.mem_cons.mp hmem with h1 | h2
          · simp at h1
          · rcases List.mem_flatMap.mp h2 with ⟨x, _, hx2⟩
            simp at hx2
      · right
        exact List.mem_cons_of_mem _ hR
    | true =>
      have hstep : fireOp (fuel+1) w cid event value true =
          ((deliverSubs fuel (w.put cid c) cid event value subs).1,
           .fired cid event value ::
             (deliverSubs fuel (w.put cid c) cid event value subs).2) := by
        simp [fireOp, hc, hsubs]
      rw [hstep]
      have hc1 : (w.put cid c).get cid = some c := World.get_put_self _ _ _
      have hsc1 : (w.put cid c).get c.sceneId = some sc := by
        rw [World.get_put_ne _ _ _ _ hne]; exact hsc
      have hlive : ∀ p ∈ subs,
          ((aget c.eventSubs event).bind (fun s => aget s p.1)).isSome = true := by
        intro p hp
        rw [hsubs]
        exact aget_isSome_of_mem hp
      rcases deliverSubs_overflow subs fuel _ cid event value c sc hc1 hdepth hne hsc1
          hnosub hlive with hL | hR
      · left
        constructor
        · rw [hL]
        · intro q v2 hmem
          rw [hL] at hmem
          rcases List.mem_cons.mp hmem with h1 | h2
          · simp at h1
          · rcases List.mem_flatMap.mp h2 with ⟨x, _, hx2⟩
            simp at hx2
      · right
        exact List.mem_cons_of_mem _ hR
  · intro fuel w cid event value c hc hdepth husers
    cases hs : aget c.eventSubs event with
    | none =>
      left
      constructor
      · intro subs hsubs
        cases hsubs
      · intro x m
        rw [fireOp_noSubs fuel w cid c event value hc hs]
        simp
    | some subs2 =>
      have hstep : fireOp (fuel+1) w cid event value false =
          ((deliverSubs fuel (w.put cid { c with events := aset c.events event (value.jsOr (.bool true)) }) cid event value subs2).1,
           .fired cid event value ::
             (deliverSubs fuel (w.put cid { c with events := aset c.events event (value.jsOr (.bool true)) }) cid event value subs2).2) := by
        simp [fireOp, hc, hs]
      rw [hstep]
      have hc1 : (w.put cid { c with events := aset c.events event (value.jsOr (.bool true)) }).get cid
          = some { c with events := aset c.events event (value.jsOr (.bool true)) } :=
        World.get_put_self _ _ _
      rcases deliverSubs_users subs2 fuel _ cid event value _ hc1 hdepth husers
          with ⟨_, hdel, herr⟩ | hof
      · left
        constructor
        · intro subs hsubs p hp
          obtain rfl : subs2 = subs := by injection hsubs
          have hsome : ((aget c.eventSubs event).bind (fun s => aget s p.1)).isSome = true := by
            rw [hs]
            exact aget_isSome_of_mem hp
          exact List.mem_cons_of_mem _ (hdel p hp hsome)
        · intro x m hmem
          rcases List.mem_cons.mp hmem with h1 | h2
          · simp at h1
          · exact herr x m h2
      · right
        exact List.mem_cons_of_mem _ hof
  · refine ⟨?_, ?_, ?_, ?_⟩
    · decide
    · decide
    · decide
    · decide

/-- Witness for `C7_recursion_guard`: at-the-threshold instance — `A` with
call depth 299 and one `"loop"` subscriber drops the delivery and reports
the error instead. -/
theorem C7_recursion_guard_witness :
    ((fireOp 11 c7DeepWorld "A" "loop" (.num 5) false).2 =
        .fired "A" "loop" (.num 5) :: ([(0, CB.user 1)] : List (Nat × CB)).flatMap (fun _ =>
          [TraceEv.errorMsg "A" (ovMsg "loop"),
           TraceEv.fired c7DeepA.sceneId "error" (.str (ovMsg "loop"))]) ∧
      (∀ q v2, TraceEv.delivered "A" "loop" q v2 ∉ (fireOp 11 c7DeepWorld "A" "loop" (.num 5) false).2)) ∨
    .outOfFuel ∈ (fireOp 11 c7DeepWorld "A" "loop" (.num 5) false).2 :=
  C7_recursion_guard.1 10 c7DeepWorld "A" "loop" (.num 5) false c7DeepA sceneComp
    [(0, CB.user 1)] rfl (by decide) (by decide) rfl rfl rfl

/-- The component record after `destroy()` on a component with no
attachments and no owned components: tables reset (lines 1036-1045),
`destroyed = true` (line 1051), and the `"destroyed"` notification retained
by the final `fire` (lines 424-425). -/
def Comp.destroyedFinal (c : Comp) : Comp :=
  { Comp.markDestroyed (Comp.resetTables c) with
    events := aset (Comp.markDestroyed (Comp.resetTables c)).events "destroyed"
      ((JSVal.bool true).jsOr (.bool true)) }

/-- `destroy()` on a live component with no attachments and no owned
components: de-register from the scene, replace the record by
`destroyedFinal`, and fire `"destroyed"` to the (just cleared) subscriber
table — the whole trace is that single fire. -/
theorem destroyOp_plain (fuel : Nat) (w : World) (cid : String) (c : Comp)
    (hc : w.get cid = some c) (hnd : c.destroyed = false)
    (hatt : c.attachments = []) (hown : c.ownedComponents = []) :
    destroyOp (fuel+2) w cid =
      (({ w with sceneComps := w.sceneComps.filter (¬ · = cid) } : World).put cid
         (Comp.destroyedFinal c),
       [.fired cid "destroyed" (.bool true)]) := by
  have h3 : ({ w with sceneComps := w.sceneComps.filter (¬ · = cid) } : World).get cid
      = some c := hc
  simp only [destroyOp, hc]
  try dsimp only
  rw [if_neg (by simp [hnd])]
  rw [hatt, hown]
  simp only [destroyAttachList, List.map_nil, destroyOwnedList]
  try dsimp only
  have h4 : ({ w with sceneComps := w.sceneComps.filter (¬ · = cid) } : World).upd cid Comp.resetTables
      = ({ w with sceneComps := w.sceneComps.filter (¬ · = cid) } : World).put cid (Comp.resetTables c) := by
    unfold World.upd
    rw [h3]
  rw [h4]
  have h5 : (({ w with sceneComps := w.sceneComps.filter (¬ · = cid) } : World).put cid (Comp.resetTables c)).upd cid Comp.markDestroyed
      = ({ w with sceneComps := w.sceneComps.filter (¬ · = cid) } : World).put cid (Comp.markDestroyed (Comp.resetTables c)) := by
    unfold World.upd
    rw [World.get_put_self]
    try dsimp only
    rw [World.put_put]
  rw [h5]
  rw [fireOp_noSubs fuel _ cid (Comp.markDestroyed (Comp.resetTables c)) "destroyed"
      (.bool true) (World.get_put_self _ _ _) rfl]
  try dsimp only
  rw [World.put_put]
  rfl

/-- The ids of the ownership subtree rooted at `cid`, to depth `d`: the
root followed by the subtrees of the components recorded in
`_ownedComponents` (the registry `_own` maintains, lines 915-925). -/
def ownIds (w : World) : Nat → String → List String
  | 0, _ => []
  | d+1, cid =>
    match w.get cid with
    | none => [cid]
    | some c => cid :: (c.ownedComponents.map Prod.fst).flatMap (ownIds w d)

/-- The `"destroyed"` fire trace `destroy()` produces on the ownership
subtree rooted at `cid`: the members' subtree traces in order, then the
root's own fire — a postorder traversal (lines 1024-1032 run before
line 1051). -/
def ownTrace (w : World) : Nat → String → List TraceEv
  | 0, _ => []
  | d+1, cid =>
    match w.get cid with
    | none => []
    | some c => (c.ownedComponents.map Prod.fst).flatMap (ownTrace w d) ++
        [.fired cid "destroyed" (.bool true)]

/-- Wellformedness of the ownership subtree rooted at `cid`, to depth `d`:
every node is present, live, carries no attachments (attachment teardown
is the separate mechanism of `_attach`, lines 733-779), and its owned
members are themselves wellformed subtrees. -/
def ownOk (w : World) : Nat → String → Prop
  | 0, _ => False
  | d+1, cid => ∃ c, w.get cid = some c ∧ c.destroyed = false ∧ c.attachments = [] ∧
      ∀ m ∈ c.ownedComponents.map Prod.fst, ownOk w d m

theorem flatMapCongr {α β : Type} (l : List α) (f g : α → List β)
    (h : ∀ a ∈ l, f a = g a) : l.flatMap f = l.flatMap g := by
  induction l with
  | nil => rfl
  | cons a rest ih =>
    simp only [List.flatMap_cons]
    rw [h a (List.mem_cons_self _ _), ih (fun x hx => h x (List.mem_cons_of_mem _ hx))]

theorem mem_ownIds_self (d : Nat) (w : World) (cid : String) :
    cid ∈ ownIds w (d+1) cid := by
  cases h : w.get cid with
  | none => simp [ownIds, h]
  | some c => simp [ownIds, h]

/-- Worlds that agree on a subtree's ids produce the same subtree ids and
the same subtree trace. -/
theorem ownIds_frame (d : Nat) : ∀ (w w2 : World) (cid : String),
    (∀ x ∈ ownIds w d cid, w2.get x = w.get x) →
    ownIds w2 d cid = ownIds w d cid ∧ ownTrace w2 d cid = ownTrace w d cid := by
  induction d with
  | zero => intro w w2 cid _; exact ⟨rfl, rfl⟩
  | succ d0 ih =>
    intro w w2 cid h
    have hcid : w2.get cid = w.get cid := h cid (mem_ownIds_self d0 w cid)
    cases hgc : w.get cid with
    | none =>
      constructor
      · simp [ownIds, hcid, hgc]
      · simp [ownTrace, hcid, hgc]
    | some c =>
      have hins : ∀ m ∈ c.ownedComponents.map Prod.fst,
          ∀ x ∈ ownIds w d0 m, w2.get x = w.get x := by
        intro m hm x hx
        refine h x ?_
        rw [show ownIds w (d0+1) cid
            = cid :: (c.ownedComponents.map Prod.fst).flatMap (ownIds w d0) from by
          simp [ownIds, hgc]]
        exact List.mem_cons_of_mem _ (List.mem_flatMap.mpr ⟨m, hm, hx⟩)
      constructor
      · rw [show ownIds w2 (d0+1) cid
            = cid :: (c.ownedComponents.map Prod.fst).flatMap (ownIds w2 d0) from by
          simp [ownIds, hcid, hgc]]
        rw [show ownIds w (d0+1) cid
            = cid :: (c.ownedComponents.map Prod.fst).flatMap (ownIds w d0) from by
          simp [ownIds, hgc]]
        exact congrArg (List.cons cid)
          (flatMapCongr _ _ _ (fun m hm => (ih w w2 m (hins m hm)).1))
      · rw [show ownTrace w2 (d0+1) cid
            = (c.ownedComponents.map Prod.fst).flatMap (ownTrace w2 d0)
              ++ [.fired cid "destroyed" (.bool true)] from by
          simp [ownTrace, hcid, hgc]]
        rw [show ownTrace w (d0+1) cid
            = (c.ownedComponents.map Prod.fst).flatMap (ownTrace w d0)
              ++ [.fired cid "destroyed" (.bool true)] from by
          simp [ownTrace, hgc]]
        exact congrArg (· ++ [.fired cid "destroyed" (.bool true)])
          (flatMapCongr _ _ _ (fun m hm => (ih w w2 m (hins m hm)).2))

/-- Subtree wellformedness transports to a world agreeing on the subtree's
ids. -/
theorem ownOk_frame (d : Nat) : ∀ (w w2 : World) (cid : String),
    (∀ x ∈ ownIds w d cid, w2.get x = w.get x) → ownOk w d cid → ownOk w2 d cid := by
  induction d with
  | zero =>
    intro w w2 cid _ hok
    simp only [ownOk] at hok
  | succ d0 ih =>
    intro w w2 cid h hok
    simp only [ownOk] at hok ⊢
    obtain ⟨c, hc, hcd, hca, hmem⟩ := hok
    have hcid : w2.get cid = w.get cid := h cid (mem_ownIds_self d0 w cid)
    refine ⟨c, hcid.trans hc, hcd, hca, ?_⟩
    intro m hm
    refine ih w w2 m ?_ (hmem m hm)
    intro x hx
    refine h x ?_
    rw [show ownIds w (d0+1) cid
        = cid :: (c.ownedComponents.map Prod.fst).flatMap (ownIds w d0) from by
      simp [ownIds, hc]]
    exact List.mem_cons_of_mem _ (List.mem_flatMap.mpr ⟨m, hm, hx⟩)

/-- Every node of a wellformed subtree contributes its own `"destroyed"`
fire to the subtree trace. -/
theorem fired_mem_ownTrace (d : Nat) : ∀ (w : World) (cid : String), ownOk w d cid →
    ∀ m ∈ ownIds w d cid,
      TraceEv.fired m "destroyed" (.bool true) ∈ ownTrace w d cid := by
  induction d with
  | zero =>
    intro w cid hok
    simp only [ownOk] at hok
  | succ d0 ih =>
    intro w cid hok m hm
    simp only [ownOk] at hok
    obtain ⟨c, hc, -, -, hmem⟩ := hok
    rw [show ownIds w (d0+1) cid
        = cid :: (c.ownedComponents.map Prod.fst).flatMap (ownIds w d0) from by
      simp [ownIds, hc]] at hm
    rw [show ownTrace w (d0+1) cid
        = (c.ownedComponents.map Prod.fst).flatMap (ownTrace w d0)
          ++ [.fired cid "destroyed" (.bool true)] from by
      simp [ownTrace, hc]]
    rcases List.mem_cons.mp hm with h1 | h2
    · subst h1
      exact List.mem_append_right _ (List.mem_singleton.mpr rfl)
    · rcases List.mem_flatMap.mp h2 with ⟨m0, hm0, hmIn⟩
      exact List.mem_append_left _
        (List.mem_flatMap.mpr ⟨m0, hm0, ih w m0 (hmem m0 hm0) m hmIn⟩)

/-- The owned-components loop of `destroy` (lines 1024-1032) over the roots
of wellformed subtrees with globally distinct ids: every node of every
subtree ends destroyed, components outside the subtrees are untouched, the
owner survives with its `destroyed` flag unchanged (only its owned set
shrinks), and the trace is the concatenation of the subtree traces in
order — unless the fuel ran out.  The recursive behaviour of the member
destroys is supplied through `IH`. -/
theorem destroyOwnedList_subtree (d : Nat)
    (IH : ∀ (fuel : Nat) (W : World) (cid : String), ownOk W d cid → (ownIds W d cid).Nodup →
      (((∀ m ∈ ownIds W d cid,
          ((destroyOp fuel W cid).1.get m).map Comp.destroyed = some true) ∧
        (∀ x, x ∉ ownIds W d cid → (destroyOp fuel W cid).1.get x = W.get x) ∧
        (destroyOp fuel W cid).2 = ownTrace W d cid) ∨
       .outOfFuel ∈ (destroyOp fuel W cid).2)) :
    ∀ (mids : List String) (fuel : Nat) (W : World) (oid : String) (oc : Comp),
      W.get oid = some oc →
      (∀ m ∈ mids, (aget oc.ownedComponents m).isSome = true) →
      (∀ m ∈ mids, ownOk W d m) →
      oid ∉ mids.flatMap (ownIds W d) →
      (mids.flatMap (ownIds W d)).Nodup →
      (((∀ m ∈ mids.flatMap (ownIds W d),
          ((destroyOwnedList fuel W oid mids).1.get m).map Comp.destroyed = some true) ∧
        (∀ x, x ∉ mids.flatMap (ownIds W d) → ¬ x = oid →
          (destroyOwnedList fuel W oid mids).1.get x = W.get x) ∧
        (∃ oc2, (destroyOwnedList fuel W oid mids).1.get oid = some oc2 ∧
          oc2.destroyed = oc.destroyed) ∧
        (destroyOwnedList fuel W oid mids).2 = mids.flatMap (ownTrace W d)) ∨
       .outOfFuel ∈ (destroyOwnedList fuel W oid mids).2) := by
  intro mids
  induction mids with
  | nil =>
    intro fuel W oid oc hoc _ _ _ _
    cases fuel with
    | zero => right; simp [destroyOwnedList]
    | succ f =>
      left
      refine ⟨by simp, ?_, ⟨oc, ?_, rfl⟩, by simp [destroyOwnedList]⟩
      · intro x _ _
        simp [destroyOwnedList]
      · simp [destroyOwnedList, hoc]
  | cons m rest ihm =>
    intro fuel W oid oc hoc hy hok hno hnd
    cases fuel with
    | zero => right; simp [destroyOwnedList]
    | succ f =>
      have hokm := hok m (List.mem_cons_self _ _)
      obtain ⟨y, hym⟩ := Option.isSome_iff_exists.mp (hy m (List.mem_cons_self _ _))
      have hndA : (ownIds W d m ++ rest.flatMap (ownIds W d)).Nodup := by
        simpa only [List.flatMap_cons] using hnd
      obtain ⟨hndm, hndR, hdisj⟩ := List.nodup_append.mp hndA
      simp only [destroyOwnedList, hoc, hym]
      try dsimp only
      rcases IH f W m hokm hndm with ⟨hA1, hF1, hT1⟩ | hOF1
      · have hoidm : oid ∉ ownIds W d m := by
          intro h
          exact hno (by simp only [List.flatMap_cons]; exact List.mem_append_left _ h)
        have hmm : m ∈ ownIds W d m := by
          cases d with
          | zero =>
            simp only [ownOk] at hokm
          | succ d0 => exact mem_ownIds_self d0 W m
        have hW1oid : (destroyOp f W m).1.get oid = some oc := by
          rw [hF1 oid hoidm]
          exact hoc
        have hw2 : (destroyOp f W m).1.upd oid
              (fun c => { c with ownedComponents := adel c.ownedComponents m })
            = (destroyOp f W m).1.put oid
              { oc with ownedComponents := adel oc.ownedComponents m } := by
          unfold World.upd
          rw [hW1oid]
        rw [hw2]
        have hframe : ∀ m2 ∈ rest, ∀ x ∈ ownIds W d m2,
            ((destroyOp f W m).1.put oid
              { oc with ownedComponents := adel oc.ownedComponents m }).get x = W.get x := by
          intro m2 hm2 x hx
          have hxflat : x ∈ rest.flatMap (ownIds W d) := List.mem_flatMap.mpr ⟨m2, hm2, hx⟩
          have hxo : ¬ oid = x := by
            intro h
            subst h
            exact hno (by simp only [List.flatMap_cons]; exact List.mem_append_right _ hxflat)
          rw [World.get_put_ne _ _ _ _ hxo]
          exact hF1 x (fun hxm => hdisj hxm hxflat)
        have hIds : rest.flatMap (ownIds ((destroyOp f W m).1.put oid
              { oc with ownedComponents := adel oc.ownedComponents m }) d)
            = rest.flatMap (ownIds W d) :=
          flatMapCongr _ _ _ (fun m2 hm2 => (ownIds_frame d W _ m2 (hframe m2 hm2)).1)
        have hTrs : rest.flatMap (ownTrace ((destroyOp f W m).1.put oid
              { oc with ownedComponents := adel oc.ownedComponents m }) d)
            = rest.flatMap (ownTrace W d) :=
          flatMapCongr _ _ _ (fun m2 hm2 => (ownIds_frame d W _ m2 (hframe m2 hm2)).2)
        have hy2 : ∀ m2 ∈ rest,
            (aget ({ oc with ownedComponents := adel oc.ownedComponents m } : Comp).ownedComponents m2).isSome = true := by
          intro m2 hm2
          have hm2m : ¬ m = m2 := by
            intro h
            subst h
            exact hdisj hmm (List.mem_flatMap.mpr ⟨m, hm2, hmm⟩)
          show (aget (adel oc.ownedComponents m) m2).isSome = true
          rw [aget_adel_ne _ _ _ hm2m]
          exact hy m2 (List.mem_cons_of_mem _ hm2)
        have hok2 : ∀ m2 ∈ rest, ownOk ((destroyOp f W m).1.put oid
            { oc with ownedComponents := adel oc.ownedComponents m }) d m2 :=
          fun m2 hm2 => ownOk_frame d W _ m2 (hframe m2 hm2) (hok m2 (List.mem_cons_of_mem _ hm2))
        have hno2 : oid ∉ rest.flatMap (ownIds ((destroyOp f W m).1.put oid
            { oc with ownedComponents := adel oc.ownedComponents m }) d) := by
          rw [hIds]
          intro h
          exact hno (by simp only [List.flatMap_cons]; exact List.mem_append_right _ h)
        have hnd2 : (rest.flatMap (ownIds ((destroyOp f W m).1.put oid
            { oc with ownedComponents := adel oc.ownedComponents m }) d)).Nodup := by
          rw [hIds]
          exact hndR
        rcases ihm f ((destroyOp f W m).1.put oid
              { oc with ownedComponents := adel oc.ownedComponents m }) oid
            { oc with ownedComponents := adel oc.ownedComponents m }
            (World.get_put_self _ _ _) hy2 hok2 hno2 hnd2
            with ⟨hA2, hF2, ⟨oc3, hoc3, hoc3d⟩, hT2⟩ | hOF2
        · rw [hIds] at hA2 hF2
          rw [hTrs] at hT2
          left
          refine ⟨?_, ?_, ⟨oc3, hoc3, hoc3d⟩, ?_⟩
          · intro x hx
            rw [List.flatMap_cons] at hx
            rcases List.mem_append.mp hx with h1 | h2
            · rw [hF2 x (fun hh => hdisj h1 hh) (by intro hh; subst hh; exact hoidm h1)]
              rw [World.get_put_ne _ _ _ _ (by intro hh; subst hh; exact hoidm h1)]
              exact hA1 x h1
            · exact hA2 x h2
          · intro x hx hxo
            rw [List.flatMap_cons] at hx
            have hx1 : x ∉ ownIds W d m := fun hh => hx (List.mem_append_left _ hh)
            have hx2 : x ∉ rest.flatMap (ownIds W d) := fun hh => hx (List.mem_append_right _ hh)
            rw [hF2 x hx2 hxo]
            rw [World.get_put_ne _ _ _ _ (fun hh => hxo hh.symm)]
            exact hF1 x hx1
          · rw [List.flatMap_cons]
            rw [hT1, hT2]
        · right
          exact List.mem_append_right _ hOF2
      · right
        exact List.mem_append_left _ hOF1

/-- `destroy()` on the root of a wellformed ownership subtree of any depth:
every node of the subtree ends destroyed, components outside the subtree
are untouched, and the trace is the postorder `ownTrace` — unless the fuel
ran out. -/
theorem destroyOp_subtree (d : Nat) :
    ∀ (fuel : Nat) (w : World) (cid : String), ownOk w d cid → (ownIds w d cid).Nodup →
    (((∀ m ∈ ownIds w d cid,
        ((destroyOp fuel w cid).1.get m).map Comp.destroyed = some true) ∧
      (∀ x, x ∉ ownIds w d cid → (destroyOp fuel w cid).1.get x = w.get x) ∧
      (destroyOp fuel w cid).2 = ownTrace w d cid) ∨
     .outOfFuel ∈ (destroyOp fuel w cid).2) := by
  induction d with
  | zero =>
    intro fuel w cid hok _
    simp only [ownOk] at hok
  | succ d0 ihd =>
    intro fuel w cid hok hnd
    have hok2 := hok
    simp only [ownOk] at hok2
    obtain ⟨c, hc, hcd, hca, hmem⟩ := hok2
    have hids : ownIds w (d0+1) cid
        = cid :: (c.ownedComponents.map Prod.fst).flatMap (ownIds w d0) := by
      simp [ownIds, hc]
    have htrc : ownTrace w (d0+1) cid
        = (c.ownedComponents.map Prod.fst).flatMap (ownTrace w d0)
          ++ [.fired cid "destroyed" (.bool true)] := by
      simp [ownTrace, hc]
    rw [hids, htrc]
    rw [hids] at hnd
    have hnoCid : cid ∉ (c.ownedComponents.map Prod.fst).flatMap (ownIds w d0) :=
      (List.nodup_cons.mp hnd).1
    have hndF : ((c.ownedComponents.map Prod.fst).flatMap (ownIds w d0)).Nodup :=
      (List.nodup_cons.mp hnd).2
    cases fuel with
    | zero => right; simp [destroyOp]
    | succ f =>
      simp only [destroyOp, hc]
      try dsimp only
      rw [if_neg (by simp [hcd])]
      rw [hca]
      cases f with
      | zero => right; simp [destroyAttachList]
      | succ f2 =>
        simp only [destroyAttachList]
        try dsimp only
        rcases destroyOwnedList_subtree d0 ihd (c.ownedComponents.map Prod.fst) (f2+1) w cid c
            hc (fun m hm => aget_isSome_of_mem_fst hm) hmem hnoCid hndF
            with ⟨hA, hF, ⟨oc2, hoc2, hoc2d⟩, hT⟩ | hOF
        · left
          have h3 : ({ (destroyOwnedList (f2+1) w cid (c.ownedComponents.map Prod.fst)).1 with
              sceneComps := (destroyOwnedList (f2+1) w cid (c.ownedComponents.map Prod.fst)).1.sceneComps.filter (¬ · = cid) } : World).get cid
              = some oc2 := hoc2
          have h4 : ({ (destroyOwnedList (f2+1) w cid (c.ownedComponents.map Prod.fst)).1 with
                sceneComps := (destroyOwnedList (f2+1) w cid (c.ownedComponents.map Prod.fst)).1.sceneComps.filter (¬ · = cid) } : World).upd cid Comp.resetTables
              = ({ (destroyOwnedList (f2+1) w cid (c.ownedComponents.map Prod.fst)).1 with
                sceneComps := (destroyOwnedList (f2+1) w cid (c.ownedComponents.map Prod.fst)).1.sceneComps.filter (¬ · = cid) } : World).put cid (Comp.resetTables oc2) := by
            unfold World.upd
            rw [h3]
          rw [h4]
          have h5 : (({ (destroyOwnedList (f2+1) w cid (c.ownedComponents.map Prod.fst)).1 with
                sceneComps := (destroyOwnedList (f2+1) w cid (c.ownedComponents.map Prod.fst)).1.sceneComps.filter (¬ · = cid) } : World).put cid (Comp.resetTables oc2)).upd cid Comp.markDestroyed
              = ({ (destroyOwnedList (f2+1) w cid (c.ownedComponents.map Prod.fst)).1 with
                sceneComps := (destroyOwnedList (f2+1) w cid (c.ownedComponents.map Prod.fst)).1.sceneComps.filter (¬ · = cid) } : World).put cid (Comp.markDestroyed (Comp.resetTables oc2)) := by
            unfold World.upd
            rw [World.get_put_self]
            try dsimp only
            rw [World.put_put]
          rw [h5]
          rw [fireOp_noSubs f2 _ cid (Comp.markDestroyed (Comp.resetTables oc2)) "destroyed"
              (.bool true) (World.get_put_self _ _ _) rfl]
          try dsimp only
          rw [World.put_put]
          refine ⟨?_, ?_, ?_⟩
          · intro x hx
            rcases List.mem_cons.mp hx with h1 | h2
            · subst h1
              rw [World.get_put_self]
              rfl
            · rw [World.get_put_ne _ _ _ _ (by intro hh; subst hh; exact hnoCid h2)]
              exact hA x h2
          · intro x hx
            have hx1 : ¬ cid = x := by
              intro hh
              subst hh
              exact hx (List.mem_cons_self _ _)
            have hx2 : x ∉ (c.ownedComponents.map Prod.fst).flatMap (ownIds w d0) :=
              fun hh => hx (List.mem_cons_of_mem _ hh)
            rw [World.get_put_ne _ _ _ _ hx1]
            exact hF x hx2 (fun hh => hx1 hh.symm)
          · rw [hT]
            rfl
        · right
          simp only [List.nil_append]
          exact List.mem_append_left _ hOF

/-- C4: destroying an owner recursively destroys its entire owned subtree
(the loop at lines 1024-1032 calls `destroy()` on every member before the
owner is reset and marked destroyed at lines 1036-1051): for an ownership
tree of any depth with distinct ids, every node of the subtree ends with
`destroyed = true`, the trace is the postorder `ownTrace` — each member's
`"destroyed"` fire strictly precedes the owner's, which comes last — and
components outside the subtree are untouched. -/
theorem C4_owner_cascade (d fuel : Nat) (w : World) (oid : String)
    (hok : ownOk w d oid) (hnd : (ownIds w d oid).Nodup) :
    ((∀ m ∈ ownIds w d oid,
        ((destroyOp fuel w oid).1.get m).map Comp.destroyed = some true) ∧
     (∀ x, x ∉ ownIds w d oid → (destroyOp fuel w oid).1.get x = w.get x) ∧
     (destroyOp fuel w oid).2 = ownTrace w d oid ∧
     (∀ m ∈ ownIds w d oid, ¬ m = oid →
       ∃ t2, (destroyOp fuel w oid).2 = t2 ++ [.fired oid "destroyed" (.bool true)] ∧
         TraceEv.fired m "destroyed" (.bool true) ∈ t2)) ∨
    .outOfFuel ∈ (destroyOp fuel w oid).2 := by
  rcases destroyOp_subtree d fuel w oid hok hnd with ⟨hA, hF, hT⟩ | hOF
  · left
    refine ⟨hA, hF, hT, ?_⟩
    intro m hm hmo
    cases d with
    | zero =>
      simp only [ownOk] at hok
    | succ d0 =>
      have hok2 := hok
      simp only [ownOk] at hok2
      obtain ⟨c, hc, -, -, -⟩ := hok2
      refine ⟨(c.ownedComponents.map Prod.fst).flatMap (ownTrace w d0), ?_, ?_⟩
      · rw [hT]
        simp [ownTrace, hc]
      · have hmem2 := fired_mem_ownTrace (d0+1) w oid hok m hm
        rw [show ownTrace w (d0+1) oid
            = (c.ownedComponents.map Prod.fst).flatMap (ownTrace w d0)
              ++ [.fired oid "destroyed" (.bool true)] from by
          simp [ownTrace, hc]] at hmem2
        rcases List.mem_append.mp hmem2 with h1 | h2
        · exact h1
        · exfalso
          simp at h2
          exact hmo h2
  · right
    exact hOF

/-- The C4 witness owner `O`: it owns `B` and `D`. -/
def c4Owner : Comp :=
  { Comp.fresh "O" "Component" "S" with ownedComponents := [("B", "B"), ("D", "D")] }

/-- The C4 witness middle node `B`: owned by `O`, itself owning `C`. -/
def c4Mid : Comp :=
  { Comp.fresh "B" "Component" "S" with ownedComponents := [("C", "C")] }

/-- The C4 witness world: the two-level ownership tree `O → {B → {C}, D}`
inside scene `S`. -/
def c4World : World :=
  { comps := [("S", sceneComp), ("O", c4Owner), ("B", c4Mid),
              ("C", Comp.fresh "C" "Component" "S"), ("D", Comp.fresh "D" "Component" "S")],
    sceneComps := ["S", "O", "B", "C", "D"], sceneId := "S", tasks := [], nextAutoId := 0 }

/-- Witness for `C4_owner_cascade`: destroying `O` destroys the whole tree
`O → {B → {C}, D}` — the grandchild `C` included — with every member's
`"destroyed"` fire strictly before `O`'s. -/
theorem C4_owner_cascade_witness :
    ((∀ m ∈ ownIds c4World 3 "O",
        ((destroyOp 10 c4World "O").1.get m).map Comp.destroyed = some true) ∧
     (∀ x, x ∉ ownIds c4World 3 "O" → (destroyOp 10 c4World "O").1.get x = c4World.get x) ∧
     (destroyOp 10 c4World "O").2 = ownTrace c4World 3 "O" ∧
     (∀ m ∈ ownIds c4World 3 "O", ¬ m = "O" →
       ∃ t2, (destroyOp 10 c4World "O").2 = t2 ++ [.fired "O" "destroyed" (.bool true)] ∧
         TraceEv.fired m "destroyed" (.bool true) ∈ t2)) ∨
    .outOfFuel ∈ (destroyOp 10 c4World "O").2 :=
  C4_owner_cascade 3 10 c4World "O"
    (by
      simp only [ownOk]
      refine ⟨c4Owner, rfl, rfl, rfl, ?_⟩
      intro m hm
      rcases List.mem_cons.mp hm with h1 | h2
      · subst h1
        simp only [ownOk]
        refine ⟨c4Mid, rfl, rfl, rfl, ?_⟩
        intro m2 hm2
        rcases List.mem_cons.mp hm2 with h3 | h4
        · subst h3
          simp only [ownOk]
          exact ⟨Comp.fresh "C" "Component" "S", rfl, rfl, rfl,
            fun m3 hm3 => absurd hm3 (List.not_mem_nil m3)⟩
        · cases h4
      · rcases List.mem_cons.mp h2 with h3 | h4
        · subst h3
          simp only [ownOk]
          exact ⟨Comp.fresh "D" "Component" "S", rfl, rfl, rfl,
            fun m3 hm3 => absurd hm3 (List.not_mem_nil m3)⟩
        · cases h4)
    (by decide)

theorem aget_eq_none_of_not_mem_fst {α β : Type} [DecidableEq α] {l : List (α × β)}
    {k : α} (h : k ∉ l.map Prod.fst) : aget l k = none := by
  induction l with
  | nil => rfl
  | cons p rest ih =>
    simp only [List.map_cons, List.mem_cons, not_or] at h
    have hp : ¬ p.1 = k := fun hh => h.1 hh.symm
    simp only [aget, hp, if_false]
    exact ih h.2

theorem aget_adel_self_nodup {α β : Type} [DecidableEq α] (l : List (α × β)) (k : α)
    (h : (l.map Prod.fst).Nodup) : aget (adel l k) k = none := by
  induction l with
  | nil => rfl
  | cons p rest ih =>
    simp only [List.map_cons, List.nodup_cons] at h
    by_cases hp : p.1 = k
    · simp only [adel, hp, if_true]
      exact aget_eq_none_of_not_mem_fst (hp ▸ h.1)
    · simp only [adel, hp, if_false, aget]
      exact ih h.2

/-- The `_attach` params used in the C6 runs: a plain by-reference attach
with the defaults (`recompiles` true, no `type`, no extra callbacks). -/
def c6Params (n cid2 : String) : AttachParams :=
  AttachParams.mk n (some (.ref cid2)) none false false none none [] true

theorem c6Params_name (n cid2 : String) : (c6Params n cid2).name = n := rfl

theorem c6Params_component (n cid2 : String) :
    (c6Params n cid2).component = some (.ref cid2) := rfl

theorem c6Params_typeReq (n cid2 : String) : (c6Params n cid2).typeReq = none := rfl

theorem c6Params_recompiles (n cid2 : String) : (c6Params n cid2).recompiles = true := rfl

theorem c6Params_onAttached (n cid2 : String) : (c6Params n cid2).onAttached = none := rfl

theorem c6Params_onMap (n cid2 : String) : (c6Params n cid2).onMap = [] := rfl

/-- The record after `on(event, cb)` with no retained notification:
handle allocated, subscription and reverse map recorded (lines 469-479). -/
def Comp.subscribed (c : Comp) (event : String) (cb : CB) : Comp :=
  { c with subIdNext := c.subIdNext + 1,
           eventSubs := aset c.eventSubs event
             (aset ((aget c.eventSubs event).getD []) c.subIdNext cb),
           subIdEvents := aset c.subIdEvents c.subIdNext event }

/-- The record after `once(event, cb)` with no retained notification: as
`subscribed`, with the stored wrapper capturing its own handle. -/
def Comp.onceSubscribed (c : Comp) (rid event : String) (inner : CB) : Comp :=
  { c with subIdNext := c.subIdNext + 1,
           eventSubs := aset c.eventSubs event
             (aset ((aget c.eventSubs event).getD []) c.subIdNext
               (CB.onceWrap rid (some c.subIdNext) inner)),
           subIdEvents := aset c.subIdEvents c.subIdNext event }

/-- The record after `off(ds)` for a live handle `ds` of event `ev`
(lines 494-510): the reverse map loses `ds` and the `ev` subscriber table
drops member `ds` — every other event's subscribers are untouched. -/
def Comp.offSub (b : Comp) (ds : Nat) (ev : String) (bsubs : List (Nat × CB)) : Comp :=
  { b with subIdEvents := adel b.subIdEvents ds,
           eventSubs := aset b.eventSubs ev (adel bsubs ds) }

/-- `on` with no retained notification just records the subscription and
returns the handle. -/
theorem onOp_quiet (fuel : Nat) (w : World) (rid event : String) (cb : CB) (c : Comp)
    (hc : w.get rid = some c) (hr : aget c.events event = none) :
    onOp (fuel+1) w rid event cb
      = (w.put rid (c.subscribed event cb), [], some c.subIdNext) := by
  simp only [onOp, hc]
  try dsimp only
  rw [hr]
  rfl

/-- `once` with no retained notification records the patched wrapper and
returns `undefined`. -/
theorem onceOp_quiet (fuel : Nat) (w : World) (rid event : String) (inner : CB) (c : Comp)
    (hc : w.get rid = some c) (hr : aget c.events event = none) :
    onceOp (fuel+2) w rid event inner
      = (w.put rid (c.onceSubscribed rid event inner), []) := by
  simp only [onceOp]
  rw [onOp_quiet fuel w rid event (CB.onceWrap rid none inner) c hc hr]
  try dsimp only
  unfold World.upd
  rw [World.get_put_self]
  try dsimp only
  simp only [Comp.subscribed]
  try dsimp only
  rw [aget_aset_self]
  try dsimp only
  rw [aget_aset_self]
  try dsimp only
  rw [World.put_put]
  rw [aset_aset, aset_aset]
  rfl

/-- The attach phase of `_attach` for a by-reference component under the
default params, when neither party has a retained `"destroyed"` / `"dirty"`
notification: subscribe the relink wrapper (recording the `undefined`
handle) and the dirty forwarder on the new occupant, store the attachment
and slot on the owner, and fire `"dirty"` and the slot event. -/
theorem attachNew_quiet (fuel : Nat) (w : World) (aid cid2 n : String) (a2 c2 : Comp)
    (hac : ¬ aid = cid2)
    (hA : w.get aid = some a2) (hC : w.get cid2 = some c2)
    (hcd : aget c2.events "destroyed" = none)
    (hcd2 : aget c2.events "dirty" = none)
    (haD : aget a2.eventSubs "dirty" = none)
    (haN : aget a2.eventSubs n = none) :
    attachNew (fuel+3) w aid (c6Params n cid2) (some cid2) false =
      ((w.put cid2 (Comp.subscribed
           (c2.onceSubscribed cid2 "destroyed" (CB.relink aid (c6Params n cid2)))
           "dirty" (CB.dirtyFwd aid))).put aid
         { a2 with
           attached := aset a2.attached n cid2,
           attachments := aset a2.attachments cid2
             (Attachment.mk (c6Params n cid2) cid2 [none, some (c2.subIdNext + 1)] false),
           events := aset (aset a2.events "dirty" ((JSVal.comp aid).jsOr (.bool true))) n
             ((JSVal.comp cid2).jsOr (.bool true)) },
       ([.fired aid "dirty" (.comp aid), .fired aid n (.comp cid2)] : List TraceEv),
       some cid2) := by
  simp only [attachNew, c6Params_recompiles, c6Params_onAttached, c6Params_onMap,
    c6Params_name, eq_self_iff_true, if_true]
  try dsimp only
  rw [onceOp_quiet fuel w cid2 "destroyed" (CB.relink aid (c6Params n cid2)) c2 hC hcd]
  try dsimp only
  rw [onOp_quiet (fuel+1) _ cid2 "dirty" (CB.dirtyFwd aid)
      (c2.onceSubscribed cid2 "destroyed" (CB.relink aid (c6Params n cid2)))
      (World.get_put_self _ _ _) hcd2]
  try dsimp only
  have hga : ((w.put cid2 (c2.onceSubscribed cid2 "destroyed" (CB.relink aid (c6Params n cid2)))).put cid2
      (Comp.subscribed (c2.onceSubscribed cid2 "destroyed" (CB.relink aid (c6Params n cid2)))
        "dirty" (CB.dirtyFwd aid))).get aid = some a2 := by
    rw [World.get_put_ne _ _ _ _ (fun h => hac h.symm)]
    rw [World.get_put_ne _ _ _ _ (fun h => hac h.symm)]
    exact hA
  have hw3 : ((w.put cid2 (c2.onceSubscribed cid2 "destroyed" (CB.relink aid (c6Params n cid2)))).put cid2
        (Comp.subscribed (c2.onceSubscribed cid2 "destroyed" (CB.relink aid (c6Params n cid2)))
          "dirty" (CB.dirtyFwd aid))).upd aid
        (fun c => { c with
          attached := aset c.attached n cid2,
          attachments := aset c.attachments cid2
            (Attachment.mk (c6Params n cid2) cid2
              [none, some (Comp.onceSubscribed c2 cid2 "destroyed" (CB.relink aid (c6Params n cid2))).subIdNext]
              false) })
      = ((w.put cid2 (c2.onceSubscribed cid2 "destroyed" (CB.relink aid (c6Params n cid2)))).put cid2
        (Comp.subscribed (c2.onceSubscribed cid2 "destroyed" (CB.relink aid (c6Params n cid2)))
          "dirty" (CB.dirtyFwd aid))).put aid
        { a2 with
          attached := aset a2.attached n cid2,
          attachments := aset a2.attachments cid2
            (Attachment.mk (c6Params n cid2) cid2
              [none, some (Comp.onceSubscribed c2 cid2 "destroyed" (CB.relink aid (c6Params n cid2))).subIdNext]
              false) } := by
    unfold World.upd
    rw [hga]
  rw [hw3]
  simp only [attachOnL]
  try dsimp only
  have hga3 : (((w.put cid2 (c2.onceSubscribed cid2 "destroyed" (CB.relink aid (c6Params n cid2)))).put cid2
        (Comp.subscribed (c2.onceSubscribed cid2 "destroyed" (CB.relink aid (c6Params n cid2)))
          "dirty" (CB.dirtyFwd aid))).put aid
        { a2 with
          attached := aset a2.attached n cid2,
          attachments := aset a2.attachments cid2
            (Attachment.mk (c6Params n cid2) cid2
              [none, some (Comp.onceSubscribed c2 cid2 "destroyed" (CB.relink aid (c6Params n cid2))).subIdNext]
              false) }).get aid
      = some { a2 with
          attached := aset a2.attached n cid2,
          attachments := aset a2.attachments cid2
            (Attachment.mk (c6Params n cid2) cid2
              [none, some (Comp.onceSubscribed c2 cid2 "destroyed" (CB.relink aid (c6Params n cid2))).subIdNext]
              false) } := World.get_put_self _ _ _
  unfold World.upd
  rw [hga3]
  try dsimp only
  rw [aget_aset_self]
  try dsimp only
  have hfire : ∀ (W : World) (a4 : Comp) (ev2 : String) (v : JSVal),
      aget a4.eventSubs ev2 = none →
      fireOp (fuel+2) (W.put aid a4) aid ev2 v false =
        ((W.put aid a4).put aid { a4 with events := aset a4.events ev2 (v.jsOr (.bool true)) },
         [.fired aid ev2 v]) := by
    intro W a4 ev2 v h
    exact fireOp_noSubs (fuel+1) (W.put aid a4) aid a4 ev2 v (World.get_put_self _ _ _) h
  rw [hfire]
  try dsimp only
  rw [hfire]
  try dsimp only
  simp only [World.put_put]
  rw [aset_aset]
  rfl
  all_goals first
  | exact haD
  | exact haN

/-- The C6 run, step 1: attach `B` to `A` under `"material"` by reference. -/
def c6W1 : World := (attachOp 20 baseWorld "A" (c6Params "material" "B")).1

/-- The C6 run, step 2: attach `C` over the occupied `"material"` slot. -/
def c6W2 : World := (attachOp 20 c6W1 "A" (c6Params "material" "C")).1

/-- C6 counterexample: the claim promises that attaching `C` over `B` first
"tears down A's subscriptions on B", but `_attach` recorded the handle of
its `once("destroyed", ...)` relink subscription as the `undefined` return
of `once` (lines 523-531, 792-798), and `off(undefined)` returns
immediately (lines 495-497) — so after `C` replaces `B`, `B` still carries
that subscription: its `"destroyed"` subscriber table still has one member
(only the recorded `"dirty"` handle was unsubscribed).  The slot itself is
replaced and unmanaged `B` is not destroyed, as the claim says. -/
theorem C6_detach_counterexample :
    ((c6W2.get "A").map (fun x => aget x.attached "material") = some (some "C")) ∧
    ((c6W2.get "B").map (fun x => ((aget x.eventSubs "destroyed").getD []).length) = some 1) ∧
    ((c6W2.get "B").map (fun x => ((aget x.eventSubs "dirty").getD []).length) = some 0) ∧
    ((c6W2.get "B").map Comp.destroyed = some false) := by
  refine ⟨by decide, by decide, by decide, by decide⟩

/-- C6 (amended): attaching `C` by reference over the component `B`
occupying slot `n` of `A` (with the canonical attachment record: the
`undefined` once-handle plus the recorded `"dirty"` handle `ds`)
unsubscribes only the recorded handle — `off(undefined)` is a no-op — then
removes `B` from the slot and from `_attachments`, destroys `B` if and only
if `B`'s attachment was lifecycle-managed, and installs `C` in the slot.
When `B` is not lifecycle-managed its record keeps everything except the
`ds` subscription; in particular `B`'s `"destroyed"` subscriber table —
holding the relink wrapper — is unchanged, so the claimed complete teardown
of A's subscriptions on B does not happen. -/
theorem C6_detach_amended (fuel : Nat) (w : World) (aid bid cid2 n ev : String)
    (a b c : Comp) (att : Attachment) (ds : Nat) (bsubs : List (Nat × CB))
    (hab : ¬ aid = bid) (hac : ¬ aid = cid2) (hbc : ¬ bid = cid2)
    (hA : w.get aid = some a) (hB : w.get bid = some b) (hC : w.get cid2 = some c)
    (hn : ¬ n = "")
    (hslot : aget a.attached n = some bid)
    (hatt : aget a.attachments bid = some att)
    (hsubs : att.subs = [none, some ds])
    (hand : (a.attachments.map Prod.fst).Nodup)
    (hsc : c.sceneId = a.sceneId)
    (hbsd : aget b.subIdEvents ds = some ev)
    (hev0 : ¬ ev = "")
    (hevd : ¬ ev = "destroyed")
    (hbev : aget b.eventSubs ev = some bsubs)
    (hcd : aget c.events "destroyed" = none)
    (hcd2 : aget c.events "dirty" = none)
    (haD : aget a.eventSubs "dirty" = none)
    (haN : aget a.eventSubs n = none)
    (hbnd : b.destroyed = false)
    (hbatt : b.attachments = []) (hbown : b.ownedComponents = []) :
    (((attachOp (fuel+6) w aid (c6Params n cid2)).1.get aid).map
        (fun x => aget x.attached n) = some (some cid2)) ∧
    (((attachOp (fuel+6) w aid (c6Params n cid2)).1.get aid).map
        (fun x => (aget x.attachments bid).isNone) = some true) ∧
    (((attachOp (fuel+6) w aid (c6Params n cid2)).1.get bid).map Comp.destroyed
        = some att.managingLifecycle) ∧
    (att.managingLifecycle = false →
      (attachOp (fuel+6) w aid (c6Params n cid2)).1.get bid
        = some (Comp.offSub b ds ev bsubs)) ∧
    (att.managingLifecycle = false →
      ((attachOp (fuel+6) w aid (c6Params n cid2)).1.get bid).map
        (fun x => aget x.eventSubs "destroyed") = some (aget b.eventSubs "destroyed")) := by
  simp only [attachOp, hA, c6Params_name, c6Params_component]
  rw [if_neg hn]
  try dsimp only
  simp only [attachResolved, hA, hC, c6Params_typeReq]
  try dsimp only
  rw [if_neg (by simp [hsc])]
  try dsimp only
  simp only [attachCore, hA, c6Params_name, hslot, hatt]
  try dsimp only
  rw [if_neg (by intro h; injection h with h2; exact hbc h2.symm)]
  rw [hsubs]
  simp only [List.foldl]
  rw [show offOp w bid none = w from rfl]
  have hw1 : offOp w bid (some ds) = w.put bid (Comp.offSub b ds ev bsubs) := by
    simp only [offOp]
    unfold World.upd
    rw [hB]
    try dsimp only
    rw [hbsd]
    try dsimp only
    rw [if_neg hev0]
    try dsimp only
    rw [hbev]
    rfl
  rw [hw1]
  have hgb : (w.put bid (Comp.offSub b ds ev bsubs)).get aid = some a := by
    rw [World.get_put_ne _ _ _ _ (fun h => hab h.symm)]
    exact hA
  have hw2 : (w.put bid (Comp.offSub b ds ev bsubs)).upd aid
        (fun x => { x with attached := adel x.attached n, attachments := adel x.attachments bid })
      = (w.put bid (Comp.offSub b ds ev bsubs)).put aid
        { a with attached := adel a.attached n, attachments := adel a.attachments bid } := by
    unfold World.upd
    rw [hgb]
  rw [hw2]
  have hgb2 : ((w.put bid (Comp.offSub b ds ev bsubs)).put aid
      { a with attached := adel a.attached n, attachments := adel a.attachments bid }).get bid
      = some (Comp.offSub b ds ev bsubs) := by
    rw [World.get_put_ne _ _ _ _ hab]
    exact World.get_put_self _ _ _
  have hgc2 : ((w.put bid (Comp.offSub b ds ev bsubs)).put aid
      { a with attached := adel a.attached n, attachments := adel a.attachments bid }).get cid2
      = some c := by
    rw [World.get_put_ne _ _ _ _ hac, World.get_put_ne _ _ _ _ hbc]
    exact hC
  cases hm : att.managingLifecycle with
  | false =>
    simp only [Bool.false_eq_true, if_false]
    rw [attachNew_quiet fuel _ aid cid2 n
        { a with attached := adel a.attached n, attachments := adel a.attachments bid } c
        hac (World.get_put_self _ _ _) hgc2 hcd hcd2 haD haN]
    try dsimp only
    refine ⟨?_, ?_, ?_, ?_, ?_⟩
    · rw [World.get_put_self]
      simp only [Option.map_some']
      try dsimp only
      rw [aget_aset_self]
      try rfl
    · rw [World.get_put_self]
      simp only [Option.map_some']
      try dsimp only
      rw [aget_aset_ne _ _ _ _ (fun h => hbc h.symm)]
      rw [aget_adel_self_nodup _ _ hand]
      try rfl
    · rw [World.get_put_ne _ _ _ _ hab, World.get_put_ne _ _ _ _ (fun h => hbc h.symm),
        World.get_put_ne _ _ _ _ hab, World.get_put_self]
      try dsimp only
      simp [Comp.offSub, hbnd]
    · intro _
      rw [World.get_put_ne _ _ _ _ hab, World.get_put_ne _ _ _ _ (fun h => hbc h.symm),
        World.get_put_ne _ _ _ _ hab, World.get_put_self]
    · intro _
      rw [World.get_put_ne _ _ _ _ hab, World.get_put_ne _ _ _ _ (fun h => hbc h.symm),
        World.get_put_ne _ _ _ _ hab, World.get_put_self]
      simp only [Option.map_some']
      try dsimp only
      rw [show (Comp.offSub b ds ev bsubs).eventSubs
          = aset b.eventSubs ev (adel bsubs ds) from rfl]
      rw [aget_aset_ne _ _ _ _ hevd]
      try rfl
  | true =>
    simp only [if_true]
    rw [show fuel + 3 = fuel + 1 + 2 from rfl]
    rw [destroyOp_plain (fuel+1) _ bid (Comp.offSub b ds ev bsubs) hgb2 hbnd hbatt hbown]
    try dsimp only
    have hga4 : (({ (w.put bid (Comp.offSub b ds ev bsubs)).put aid
          { a with attached := adel a.attached n, attachments := adel a.attachments bid } with
          sceneComps := ((w.put bid (Comp.offSub b ds ev bsubs)).put aid
            { a with attached := adel a.attached n, attachments := adel a.attachments bid }).sceneComps.filter (¬ · = bid) } : World).put bid
          ((Comp.offSub b ds ev bsubs).destroyedFinal)).get aid
        = some { a with attached := adel a.attached n, attachments := adel a.attachments bid } := by
      rw [World.get_put_ne _ _ _ _ (fun h => hab h.symm)]
      exact World.get_put_self _ _ _
    have hgc4 : (({ (w.put bid (Comp.offSub b ds ev bsubs)).put aid
          { a with attached := adel a.attached n, attachments := adel a.attachments bid } with
          sceneComps := ((w.put bid (Comp.offSub b ds ev bsubs)).put aid
            { a with attached := adel a.attached n, attachments := adel a.attachments bid }).sceneComps.filter (¬ · = bid) } : World).put bid
          ((Comp.offSub b ds ev bsubs).destroyedFinal)).get cid2
        = some c := by
      rw [World.get_put_ne _ _ _ _ hbc]
      exact hgc2
    rw [attachNew_quiet fuel _ aid cid2 n
        { a with attached := adel a.attached n, attachments := adel a.attachments bid } c
        hac hga4 hgc4 hcd hcd2 haD haN]
    try dsimp only
    refine ⟨?_, ?_, ?_, ?_, ?_⟩
    · rw [World.get_put_self]
      simp only [Option.map_some']
      try dsimp only
      rw [aget_aset_self]
      try rfl
    · rw [World.get_put_self]
      simp only [Option.map_some']
      try dsimp only
      rw [aget_aset_ne _ _ _ _ (fun h => hbc h.symm)]
      rw [aget_adel_self_nodup _ _ hand]
      try rfl
    · rw [World.get_put_ne _ _ _ _ hab, World.get_put_ne _ _ _ _ (fun h => hbc h.symm),
        World.get_put_self]
      rfl
    · intro h
      cases h
    · intro h
      cases h

/-- The C6 witness owner: `B` occupies `"material"` with the canonical
attachment record (undefined once-handle, `"dirty"` handle 1, unmanaged). -/
def c6A : Comp :=
  { Comp.fresh "A" "Component" "S" with
    attached := [("material", "B")],
    attachments := [("B", Attachment.mk (c6Params "material" "B") "B" [none, some 1] false)] }

/-- The C6 witness occupant: carries the once-wrapper on `"destroyed"`
(handle 0) and the dirty forwarder (handle 1), as `_attach` installed. -/
def c6B : Comp :=
  { Comp.fresh "B" "Component" "S" with
    subIdNext := 2,
    subIdEvents := [(0, "destroyed"), (1, "dirty")],
    eventSubs := [("destroyed", [(0, CB.onceWrap "B" (some 0)
                    (CB.relink "A" (c6Params "material" "B")))]),
                  ("dirty", [(1, CB.dirtyFwd "A")])] }

/-- The C6 witness world. -/
def c6WitWorld : World :=
  { comps := [("S", sceneComp), ("A", c6A), ("B", c6B),
              ("C", Comp.fresh "C" "Component" "S")],
    sceneComps := ["S", "A", "B", "C"], sceneId := "S", tasks := [], nextAutoId := 0 }

/-- Witness for `C6_detach_amended`: attaching `C` over the unmanaged `B`
replaces the slot, drops `B` from the tables, removes only the recorded
`"dirty"` handle and leaves `B` alive with its `"destroyed"` wrapper. -/
theorem C6_detach_amended_witness :
    (((attachOp 6 c6WitWorld "A" (c6Params "material" "C")).1.get "A").map
        (fun x => aget x.attached "material") = some (some "C")) ∧
    (((attachOp 6 c6WitWorld "A" (c6Params "material" "C")).1.get "A").map
        (fun x => (aget x.attachments "B").isNone) = some true) ∧
    (((attachOp 6 c6WitWorld "A" (c6Params "material" "C")).1.get "B").map Comp.destroyed
        = some (Attachment.mk (c6Params "material" "B") "B" [none, some 1] false).managingLifecycle) ∧
    ((Attachment.mk (c6Params "material" "B") "B" [none, some 1] false).managingLifecycle = false →
      (attachOp 6 c6WitWorld "A" (c6Params "material" "C")).1.get "B"
        = some (Comp.offSub c6B 1 "dirty" [(1, CB.dirtyFwd "A")])) ∧
    ((Attachment.mk (c6Params "material" "B") "B" [none, some 1] false).managingLifecycle = false →
      ((attachOp 6 c6WitWorld "A" (c6Params "material" "C")).1.get "B").map
        (fun x => aget x.eventSubs "destroyed") = some (aget c6B.eventSubs "destroyed")) :=
  C6_detach_amended 0 c6WitWorld "A" "B" "C" "material" "dirty" c6A c6B
    (Comp.fresh "C" "Component" "S")
    (Attachment.mk (c6Params "material" "B") "B" [none, some 1] false) 1
    [(1, CB.dirtyFwd "A")]
    (by decide) (by decide) (by decide) rfl rfl rfl (by decide) rfl rfl rfl
    (by decide) rfl rfl (by decide) (by decide) rfl rfl rfl rfl rfl rfl rfl rfl


end Xeokit
